import Mathlib

/-!
# Verification of the sentry certificate requester and of `DynamicValue.String`

Shallow embedding of

* `pkg/apis/externalHTTPEndpoint/v1alpha1/types.go` (`DynamicValue.String`), with the
  standard-library functions it calls (`strconv.Unquote`, `unicode/utf8`);
* `pkg/injector/sentry/sentry.go` (`New`, `dialSentryConnection`,
  `RequestCertificateFromSentry`), with the outside world (random source, token source,
  network, certificate authority) passed explicitly as a `World`.
-/

namespace Dapr

/-- A Go byte string or byte slice: the sequence of its bytes, each below 256. -/
abbrev Bytes := List Nat

/-- The bytes of an ASCII string literal. -/
def ascii (s : String) : Bytes := s.toList.map Char.toNat

/-! ## `unicode/utf8` -/

namespace utf8

def RuneError : Nat := 0xFFFD
def RuneSelf : Nat := 0x80
def MaxRune : Nat := 0x10FFFF
def surrogateMin : Nat := 0xD800
def surrogateMax : Nat := 0xDFFF

/-- Go `utf8.ValidRune`: the rune is a Unicode scalar value. -/
def ValidRune (r : Nat) : Bool :=
  if r < surrogateMin then true
  else if surrogateMax < r && r ≤ MaxRune then true
  else false

/-- The tables `first` and `acceptRanges` of `unicode/utf8`: for a lead byte at or above
`RuneSelf`, the length of the encoding and the accepted range of the second byte;
`none` for a byte that cannot start an encoding. -/
def first (b : Nat) : Option (Nat × Nat × Nat) :=
  if 0xC2 ≤ b ∧ b ≤ 0xDF then some (2, 0x80, 0xBF)
  else if b = 0xE0 then some (3, 0xA0, 0xBF)
  else if 0xE1 ≤ b ∧ b ≤ 0xEC then some (3, 0x80, 0xBF)
  else if b = 0xED then some (3, 0x80, 0x9F)
  else if 0xEE ≤ b ∧ b ≤ 0xEF then some (3, 0x80, 0xBF)
  else if b = 0xF0 then some (4, 0x90, 0xBF)
  else if 0xF1 ≤ b ∧ b ≤ 0xF3 then some (4, 0x80, 0xBF)
  else if b = 0xF4 then some (4, 0x80, 0x8F)
  else none

/-- A continuation byte outside `locb..hicb`. -/
def notCont (c : Nat) : Bool := c < 0x80 || 0xBF < c

/-- Go `utf8.DecodeRuneInString`: the first rune of the string and its width in bytes;
`(RuneError, 0)` for the empty string and `(RuneError, 1)` for an invalid encoding. -/
def DecodeRuneInString (s : Bytes) : Nat × Nat :=
  match s with
  | [] => (RuneError, 0)
  | s0 :: rest =>
    if s0 < RuneSelf then (s0, 1)
    else
      match first s0 with
      | none => (RuneError, 1)
      | some (sz, lo, hi) =>
        if rest.length + 1 < sz then (RuneError, 1)
        else
          match rest with
          | [] => (RuneError, 1)
          | s1 :: rest1 =>
            if s1 < lo || hi < s1 then (RuneError, 1)
            else if sz ≤ 2 then (((s0 &&& 0x1F) <<< 6) ||| (s1 &&& 0x3F), 2)
            else
              match rest1 with
              | [] => (RuneError, 1)
              | s2 :: rest2 =>
                if notCont s2 then (RuneError, 1)
                else if sz ≤ 3 then
                  (((s0 &&& 0x0F) <<< 12) ||| ((s1 &&& 0x3F) <<< 6) ||| (s2 &&& 0x3F), 3)
                else
                  match rest2 with
                  | [] => (RuneError, 1)
                  | s3 :: _ =>
                    if notCont s3 then (RuneError, 1)
                    else
                      (((s0 &&& 0x07) <<< 18) ||| ((s1 &&& 0x3F) <<< 12)
                        ||| ((s2 &&& 0x3F) <<< 6) ||| (s3 &&& 0x3F), 4)

/-- The number of bytes of the valid encoding at the head of a non-empty string, as the
loop body of `utf8.ValidString` computes it; `none` when the head is not valid. -/
def validStep (s : Bytes) : Option Nat :=
  match s with
  | [] => none
  | si :: rest =>
    if si < RuneSelf then some 1
    else
      match first si with
      | none => none
      | some (size, lo, hi) =>
        if rest.length + 1 < size then none
        else
          match rest with
          | [] => none
          | c1 :: rest1 =>
            if c1 < lo || hi < c1 then none
            else if size = 2 then some 2
            else
              match rest1 with
              | [] => none
              | c2 :: rest2 =>
                if notCont c2 then none
                else if size = 3 then some 3
                else
                  match rest2 with
                  | [] => none
                  | c3 :: _ => if notCont c3 then none else some 4

/-- The loop of `utf8.ValidString`; the fuel bounds the number of iterations, each of
which consumes at least one byte. -/
def validLoop : Nat → Bytes → Bool
  | _, [] => true
  | 0, _ :: _ => false
  | fuel + 1, s =>
    match validStep s with
    | none => false
    | some size => validLoop fuel (s.drop size)

/-- Go `utf8.ValidString`. -/
def ValidString (s : Bytes) : Bool := validLoop s.length s

/-- Go `utf8.AppendRune`: the buffer followed by the UTF-8 encoding of the rune; an
invalid rune is encoded as `RuneError`. -/
def AppendRune (p : Bytes) (r : Nat) : Bytes :=
  if r ≤ 0x7F then p ++ [r]
  else if r ≤ 0x7FF then p ++ [0xC0 ||| (r >>> 6), 0x80 ||| (r &&& 0x3F)]
  else
    let r3 := if MaxRune < r || (surrogateMin ≤ r && r ≤ surrogateMax) then RuneError else r
    if MaxRune < r || (surrogateMin ≤ r && r ≤ surrogateMax) || r ≤ 0xFFFF then
      p ++ [0xE0 ||| (r3 >>> 12), 0x80 ||| ((r3 >>> 6) &&& 0x3F), 0x80 ||| (r3 &&& 0x3F)]
    else
      p ++ [0xF0 ||| (r >>> 18), 0x80 ||| ((r >>> 12) &&& 0x3F),
            0x80 ||| ((r >>> 6) &&& 0x3F), 0x80 ||| (r &&& 0x3F)]

end utf8

/-! ## `strconv.Unquote` -/

namespace strconv

/-- Go `strconv.unhex`: the value of a hexadecimal digit. -/
def unhex (b : Nat) : Option Nat :=
  if 0x30 ≤ b ∧ b ≤ 0x39 then some (b - 0x30)
  else if 0x61 ≤ b ∧ b ≤ 0x66 then some (b - 0x61 + 10)
  else if 0x41 ≤ b ∧ b ≤ 0x46 then some (b - 0x41 + 10)
  else none

/-- The digit loop of the `x`, `u`, `U` escapes of `UnquoteChar`: reads `n` hexadecimal
digits, `v = v<<4 | x` for each; `none` is `ErrSyntax`. -/
def hexDigits : Nat → Bytes → Nat → Option (Nat × Bytes)
  | 0, s, v => some (v, s)
  | _ + 1, [], _ => none
  | n + 1, b :: s, v =>
    match unhex b with
    | none => none
    | some x => hexDigits n s ((v <<< 4) ||| x)

/-- The digit loop of the octal escape of `UnquoteChar`: `n` more octal digits. -/
def octDigits : Nat → Bytes → Nat → Option (Nat × Bytes)
  | 0, s, v => some (v, s)
  | _ + 1, [], _ => none
  | n + 1, b :: s, v =>
    if b < 0x30 || 0x37 < b then none
    else octDigits n s ((v <<< 3) ||| (b - 0x30))

/-- Go `strconv.UnquoteChar`: decodes the first character or escape of `s` for the quote
character `quote`; the result is `(value, multibyte, tail)`, and `none` is `ErrSyntax`. -/
def UnquoteChar (s : Bytes) (quote : Nat) : Option (Nat × Bool × Bytes) :=
  match s with
  | [] => none
  | c0 :: rest0 =>
    if c0 = quote ∧ (quote = 0x27 ∨ quote = 0x22) then none
    else if utf8.RuneSelf ≤ c0 then
      some ((utf8.DecodeRuneInString s).1, true, s.drop (utf8.DecodeRuneInString s).2)
    else if c0 ≠ 0x5C then some (c0, false, rest0)
    else
      match rest0 with
      | [] => none
      | c :: t =>
        if c = 0x61 then some (0x07, false, t)
        else if c = 0x62 then some (0x08, false, t)
        else if c = 0x66 then some (0x0C, false, t)
        else if c = 0x6E then some (0x0A, false, t)
        else if c = 0x72 then some (0x0D, false, t)
        else if c = 0x74 then some (0x09, false, t)
        else if c = 0x76 then some (0x0B, false, t)
        else if c = 0x78 then
          match hexDigits 2 t 0 with
          | none => none
          | some (v, t1) => some (v, false, t1)
        else if c = 0x75 ∨ c = 0x55 then
          match hexDigits (if c = 0x75 then 4 else 8) t 0 with
          | none => none
          | some (v, t1) => if utf8.ValidRune v then some (v, true, t1) else none
        else if 0x30 ≤ c ∧ c ≤ 0x37 then
          match octDigits 2 t (c - 0x30) with
          | none => none
          | some (v, t1) => if 255 < v then none else some (v, false, t1)
        else if c = 0x5C then some (0x5C, false, t)
        else if c = 0x27 ∨ c = 0x22 then
          if c ≠ quote then none else some (c, false, t)
        else none

/-- The loop of `strconv.unquote` over a quoted string with escape sequences, entered
after the opening quote: returns the buffer and the input left when the loop ends; the
fuel bounds the number of iterations, each of which consumes at least one byte. -/
def unquoteLoop (quote : Nat) (unescape : Bool) :
    Nat → Bytes → Bytes → Option (Bytes × Bytes)
  | 0, _, _ => none
  | fuel + 1, inp, buf =>
    match inp with
    | [] => some (buf, inp)
    | c :: _ =>
      if c = quote then some (buf, inp)
      else
        match UnquoteChar inp quote with
        | none => none
        | some (r, multibyte, rem) =>
          if c = 0x0A then none
          else
            let buf1 :=
              if unescape then
                (if r < utf8.RuneSelf || !multibyte then buf ++ [r % 256]
                 else utf8.AppendRune buf r)
              else buf
            if quote = 0x27 then some (buf1, rem)
            else unquoteLoop quote unescape fuel rem buf1

/-- Go `strconv.unquote`: the unquoted prefix of `inp` and the rest of the input; `none`
is `ErrSyntax`. -/
def unquote (inp : Bytes) (unescape : Bool) : Option (Bytes × Bytes) :=
  match inp with
  | [] => none
  | [_] => none
  | quote :: tl =>
    if tl.indexOf quote = tl.length then none
    else
      let e := tl.indexOf quote + 2
      if quote = 0x60 then
        let out :=
          if !unescape then inp.take e
          else if !(inp.take e).contains 0x0D then (inp.take (e - 1)).drop 1
          else ((inp.take (e - 1)).drop 1).filter (fun b => b != 0x0D)
        some (out, inp.drop e)
      else if quote = 0x22 ∨ quote = 0x27 then
        let body := (inp.take (e - 1)).drop 1
        let valid :=
          if quote = 0x22 then utf8.ValidString body
          else
            (1 + (utf8.DecodeRuneInString body).2 + 1 == e)
              && ((utf8.DecodeRuneInString body).1 != utf8.RuneError
                  || (utf8.DecodeRuneInString body).2 != 1)
        if !(inp.take e).contains 0x5C && !(inp.take e).contains 0x0A && valid then
          some (if unescape then body else inp.take e, inp.drop e)
        else
          match unquoteLoop quote unescape (tl.length + 1) tl [] with
          | none => none
          | some (buf, rest) =>
            match rest with
            | [] => none
            | c :: rest1 =>
              if c ≠ quote then none
              else if unescape then some (buf, rest1)
              else some (inp.take (inp.length - rest1.length), rest1)
      else none

/-- Go `strconv.Unquote`: interprets `s` as a Go string literal (double-quoted,
back-quoted or single-quoted) and returns the string it quotes; `none` is `ErrSyntax`. -/
def Unquote (s : Bytes) : Option Bytes :=
  match unquote s true with
  | none => none
  | some (out, rem) => if rem.length > 0 then none else some out

end strconv

/-! ## `types.go` -/

/-- The type `JSON` of `k8s.io/apiextensions-apiserver`: raw JSON bytes. -/
structure JSON where
  Raw : Bytes
deriving DecidableEq, Repr

/-- The struct `DynamicValue` of `types.go`: it embeds the raw JSON value. -/
structure DynamicValue where
  JSON : JSON
deriving DecidableEq, Repr

/-- The method `(*DynamicValue).String` of `types.go`: the raw bytes, unquoted with
`strconv.Unquote` when that succeeds. -/
def DynamicValue.String (d : DynamicValue) : Bytes :=
  let s := d.JSON.Raw
  match strconv.Unquote s with
  | some c => c
  | none => s

/-! ## JSON string literals (RFC 8259, section 7) -/

namespace json

/-- The value of a hexadecimal digit of a JSON unicode escape. -/
def hexVal (b : Nat) : Option Nat :=
  if 0x30 ≤ b ∧ b ≤ 0x39 then some (b - 0x30)
  else if 0x41 ≤ b ∧ b ≤ 0x46 then some (b - 0x41 + 10)
  else if 0x61 ≤ b ∧ b ≤ 0x66 then some (b - 0x61 + 10)
  else none

/-- The four hexadecimal digits after a backslash and `u`: their value and the rest. -/
def hex4 : Bytes → Option (Nat × Bytes)
  | a :: b :: c :: d :: rest =>
    match hexVal a, hexVal b, hexVal c, hexVal d with
    | some a, some b, some c, some d => some (((a * 16 + b) * 16 + c) * 16 + d, rest)
    | _, _, _, _ => none
  | _ => none

/-- The characters of a JSON string literal after its opening quotation mark, up to the
closing quotation mark, which must end the input: the escapes are the two-character
ones (quotation mark, reverse solidus, solidus, b, f, n, r, t) and the unicode escape, a
pair of surrogate escapes standing for one character above the basic plane; control
characters must be escaped. The result is the UTF-8 text denoted; `none` when the input
is not a JSON string literal. The fuel bounds the number of characters. -/
def chars : Nat → Bytes → Bytes → Option Bytes
  | 0, _, _ => none
  | _ + 1, [], _ => none
  | fuel + 1, c :: rest, acc =>
    if c = 0x22 then (if rest = [] then some acc else none)
    else if c = 0x5C then
      match rest with
      | [] => none
      | e :: rest1 =>
        if e = 0x22 then chars fuel rest1 (acc ++ [0x22])
        else if e = 0x5C then chars fuel rest1 (acc ++ [0x5C])
        else if e = 0x2F then chars fuel rest1 (acc ++ [0x2F])
        else if e = 0x62 then chars fuel rest1 (acc ++ [0x08])
        else if e = 0x66 then chars fuel rest1 (acc ++ [0x0C])
        else if e = 0x6E then chars fuel rest1 (acc ++ [0x0A])
        else if e = 0x72 then chars fuel rest1 (acc ++ [0x0D])
        else if e = 0x74 then chars fuel rest1 (acc ++ [0x09])
        else if e = 0x75 then
          match hex4 rest1 with
          | none => none
          | some (u, rest2) =>
            if 0xD800 ≤ u ∧ u ≤ 0xDBFF then
              match rest2 with
              | 0x5C :: 0x75 :: rest3 =>
                match hex4 rest3 with
                | none => none
                | some (lo, rest4) =>
                  if 0xDC00 ≤ lo ∧ lo ≤ 0xDFFF then
                    chars fuel rest4
                      (utf8.AppendRune acc (0x10000 + (u - 0xD800) * 0x400 + (lo - 0xDC00)))
                  else none
              | _ => none
            else if 0xDC00 ≤ u ∧ u ≤ 0xDFFF then none
            else chars fuel rest2 (utf8.AppendRune acc u)
        else none
    else if c < 0x20 then none
    else chars fuel rest (acc ++ [c])

/-- The string a JSON string literal denotes: `stringValue raw = some s` says that `raw`
is a JSON serialization of the string `s`. -/
def stringValue (raw : Bytes) : Option Bytes :=
  match raw with
  | 0x22 :: rest => chars (rest.length + 1) rest []
  | _ => none

end json

/-! ## Go errors, gRPC and the other libraries `sentry.go` calls -/

/-- The gRPC status codes of `google.golang.org/grpc/codes`. -/
inductive Code
  | OK | Canceled | Unknown | InvalidArgument | DeadlineExceeded | NotFound
  | AlreadyExists | PermissionDenied | ResourceExhausted | FailedPrecondition
  | Aborted | OutOfRange | Unimplemented | Internal | Unavailable | DataLoss
  | Unauthenticated
deriving DecidableEq, Repr

/-- A Go `error` value: a plain error of some library, the error of a gRPC status, or
the error `fmt.Errorf` builds with the verb `%w`. -/
inductive GoError
  | errorString (msg : String)
  | status (code : Code) (desc : String)
  | wrapError (msg : String) (err : GoError)
deriving DecidableEq, Repr

/-- The call `fmt.Errorf(msg + ": %w", err)`: an error that wraps `err`. -/
def Errorf (msg : String) (err : GoError) : GoError := .wrapError msg err

/-- The name of a status code as `Code.String` prints it. -/
def Code.name : Code → String
  | .OK => "OK" | .Canceled => "Canceled" | .Unknown => "Unknown"
  | .InvalidArgument => "InvalidArgument" | .DeadlineExceeded => "DeadlineExceeded"
  | .NotFound => "NotFound" | .AlreadyExists => "AlreadyExists"
  | .PermissionDenied => "PermissionDenied" | .ResourceExhausted => "ResourceExhausted"
  | .FailedPrecondition => "FailedPrecondition" | .Aborted => "Aborted"
  | .OutOfRange => "OutOfRange" | .Unimplemented => "Unimplemented"
  | .Internal => "Internal" | .Unavailable => "Unavailable" | .DataLoss => "DataLoss"
  | .Unauthenticated => "Unauthenticated"

/-- The method `Error()` of an error: its message. -/
def GoError.Error : GoError → String
  | .errorString msg => msg
  | .status code desc => "rpc error: code = " ++ code.name ++ " desc = " ++ desc
  | .wrapError msg err => msg ++ ": " ++ err.Error

/-- The function `errors.Unwrap`: the error wrapped with `%w`, if any. -/
def GoError.Unwrap : GoError → Option GoError
  | .wrapError _ err => some err
  | _ => none

/-- The function `status.Code`: the code of the gRPC status the error is or wraps,
`Unknown` for an error that carries no status. -/
def GoError.Code : GoError → Code
  | .errorString _ => .Unknown
  | .status code _ => code
  | .wrapError _ err => err.Code

/-- The type `ecdsa.PublicKey`: a point of the curve. -/
structure PublicKey where
  X : Nat
  Y : Nat
deriving DecidableEq, Repr

/-- The type `ecdsa.PrivateKey`: the public key and the secret scalar. -/
structure PrivateKey where
  PublicKey : PublicKey
  D : Nat
deriving DecidableEq, Repr

/-- The type `pkix.Name`, with the one field the source sets. -/
structure Name where
  CommonName : String
deriving DecidableEq, Repr

/-- The type `x509.CertificateRequest`, with the fields the source sets. -/
structure CertificateRequest where
  Subject : Name
  DNSNames : List String
deriving DecidableEq, Repr

/-- The type `pem.Block`. -/
structure Block where
  Type_ : String
  Headers : List (String × String)
  Bytes : Bytes
deriving DecidableEq, Repr

/-- Modelled from the spec: the enumeration `SignCertificateRequest_TokenValidator` of
the generated sentry protocol (`pkg/proto/sentry/v1`, not under `src/`), the discriminator
of the kind of token. -/
inductive TokenValidator
  | UNKNOWN | INSECURE | KUBERNETES | JWKS
deriving DecidableEq, Repr

/-- Modelled from the spec: the message `SignCertificateRequest` of the generated sentry
protocol (`pkg/proto/sentry/v1`, not under `src/`), with the five fields the spec lists
and the source sets. -/
structure SignCertificateRequest where
  CertificateSigningRequest : Bytes
  Id : String
  Token : String
  Namespace : String
  TokenValidator : TokenValidator
deriving DecidableEq, Repr

/-- Modelled from the spec: the message `SignCertificateResponse` of the generated
sentry protocol (`pkg/proto/sentry/v1`, not under `src/`), with its one field, the PEM
chain; `none` is a nil slice. -/
structure SignCertificateResponse where
  WorkloadCertificate : Option Bytes
deriving DecidableEq, Repr

/-- The method `GetWorkloadCertificate` of a non-nil response. -/
def SignCertificateResponse.GetWorkloadCertificate (x : SignCertificateResponse) :
    Option Bytes :=
  x.WorkloadCertificate

/-- The call options of the gRPC retry middleware the source passes to the RPC:
`grpcRetry.WithMax` and `grpcRetry.WithPerRetryTimeout` (a duration in nanoseconds). -/
inductive CallOption
  | WithMax (maxRetries : Nat)
  | WithPerRetryTimeout (timeout : Nat)
deriving DecidableEq, Repr

/-- The dial options of gRPC that matter here: transport credentials (mutual TLS for a
peer identity, or none), `grpc.WithBlock`, and `grpc.WithUnaryInterceptor` given the
interceptor of the retry middleware, `grpcRetry.UnaryClientInterceptor(optFuncs...)`. -/
inductive DialOption
  | WithTransportCredentials (mtlsPeer : Option String)
  | WithBlock
  | WithUnaryInterceptor (optFuncs : List CallOption)
deriving DecidableEq, Repr

/-- A gRPC client connection: its target and the options it was dialled with. -/
structure ClientConn where
  target : String
  dopts : List DialOption
deriving DecidableEq, Repr

/-- The unary interceptor of a connection, `cc.dopts.unaryInt`: the one of the last
`WithUnaryInterceptor` dial option, `none` when the connection was dialled without. -/
def ClientConn.unaryInt (cc : ClientConn) : Option (List CallOption) :=
  cc.dopts.foldl
    (fun acc o =>
      match o with
      | .WithUnaryInterceptor optFuncs => some optFuncs
      | _ => acc)
    none

/-- One nanosecond-based duration constant of package `time`. -/
def Second : Nat := 1000000000

/-- The duration `time.Minute`. -/
def Minute : Nat := 60 * Second

/-- What can happen to one attempt of the RPC `SignCertificate`: the authority signs;
the authority answers with an error status of its choice; the transport cannot reach
the authority; the deadline of the context of the attempt ends; the context is
cancelled by the caller. -/
inductive Outcome
  | signed (resp : SignCertificateResponse)
  | rejected (code : Code) (desc : String)
  | unavailable (desc : String)
  | deadlineExceeded
  | canceled
deriving DecidableEq, Repr

/-- What the client gets back from an attempt: the response, or the error of a gRPC
status. A status sent by the authority arrives as it was sent; a transport failure is
the status `Unavailable`; the end of the context is the status made of the context
error, `DeadlineExceeded` or `Canceled`. -/
def Outcome.result : Outcome → Except GoError SignCertificateResponse
  | .signed resp => .ok resp
  | .rejected code desc => .error (.status code desc)
  | .unavailable desc => .error (.status .Unavailable desc)
  | .deadlineExceeded => .error (.status .DeadlineExceeded "context deadline exceeded")
  | .canceled => .error (.status .Canceled "context canceled")

/-- What the code calls during one run and what the outside answers: the random source,
the token source, the process environment, the network and the certificate authority.
Every field is the answer the call of that name gets in this run. -/
structure World where
  /-- The call `os.LookupEnv(key)`: the value of the variable, `none` when unset. -/
  LookupEnv : String → Option String
  /-- The call `grpc.DialContext(ctx, target, opts...)` under the given timeout: `none`
  when the connection is established, the error otherwise. -/
  DialContext : Nat → String → List DialOption → Option GoError
  /-- The call `ecdsa.GenerateKey(elliptic.P256(), rand.Reader)`. -/
  GenerateKey : Except GoError PrivateKey
  /-- The call `x509.CreateCertificateRequest(rand.Reader, template, key)`. -/
  CreateCertificateRequest : CertificateRequest → PrivateKey → Except GoError Bytes
  /-- The call `securitytoken.GetSentryToken(kubernetesMode)`. -/
  GetSentryToken : Bool → Except GoError (String × TokenValidator)
  /-- The call `x509.MarshalPKCS8PrivateKey(key)`. -/
  MarshalPKCS8PrivateKey : PrivateKey → Except GoError Bytes
  /-- The call `pem.EncodeToMemory(block)` for a block without headers. -/
  EncodeToMemory : Block → Bytes
  /-- What happens to the attempt with the given index, from 0, of the unary RPC
  `SignCertificate`: one call of the transport with the request. -/
  invoke : Nat → SignCertificateRequest → Outcome
  /-- Whether the context of the caller is done, `parentCtx.Err() != nil`, when the
  attempt with the given index has returned. -/
  ctxDoneAfter : Nat → Bool
  /-- Whether the context of the caller ends during the backoff wait before the attempt
  with the given index, and the status error of that end. -/
  ctxErrInBackoff : Nat → Option GoError

/-- What the run of a request does to the outside, in order. -/
inductive Event
  | GenerateKey
  | CreateCertificateRequest (template : CertificateRequest) (key : PrivateKey)
  | GetSentryToken (kubernetesMode : Bool)
  | SignCertificate (attempt : Nat) (req : SignCertificateRequest)
  | MarshalPKCS8PrivateKey (key : PrivateKey)
deriving DecidableEq, Repr

/-! ## The retry middleware and `ClientConn.Invoke` -/

namespace retry

/-- The options of the retry middleware: the maximum number of attempts, the timeout of
one attempt (0 for none) and the status codes that are retried. -/
structure options where
  max : Nat
  perCallTimeout : Nat
  codes : List Code
deriving DecidableEq, Repr

/-- The defaults of the middleware: retries are disabled (`max` is 0) and the retriable
codes are `ResourceExhausted` and `Unavailable`. -/
def defaultOptions : options := ⟨0, 0, [.ResourceExhausted, .Unavailable]⟩

/-- What one call option does to the options. -/
def applyOption (o : options) : CallOption → options
  | .WithMax maxRetries => { o with max := maxRetries }
  | .WithPerRetryTimeout timeout => { o with perCallTimeout := timeout }

/-- The function `reuseOrNewWithCallOptions`: the options with the call options applied
in order. -/
def reuseOrNewWithCallOptions (opt : options) (callOptions : List CallOption) : options :=
  callOptions.foldl applyOption opt

/-- The function `isContextError`: the status is a deadline or a cancellation. -/
def isContextError (err : GoError) : Bool :=
  err.Code == .DeadlineExceeded || err.Code == .Canceled

/-- The function `isRetriable`: the status code is one of the retriable codes and not a
context error. -/
def isRetriable (err : GoError) (callOpts : options) : Bool :=
  if isContextError err then false else callOpts.codes.contains err.Code

/-- One iteration of the retry loop for the attempt with the given index: the backoff
wait (skipped before the first attempt), the call of the transport and the decision.
The result is the events of the iteration and either the final result of the RPC
(`inl`) or the error after which the loop goes on (`inr`). -/
def iteration (w : World) (callOpts : options) (req : SignCertificateRequest)
    (attempt : Nat) :
    List Event × (Except GoError SignCertificateResponse ⊕ GoError) :=
  match (if attempt = 0 then none else w.ctxErrInBackoff attempt) with
  | some err => ([], .inl (.error err))
  | none =>
    match (w.invoke attempt req).result with
    | .ok resp => ([.SignCertificate attempt req], .inl (.ok resp))
    | .error lastErr =>
      if isContextError lastErr && w.ctxDoneAfter attempt then
        ([.SignCertificate attempt req], .inl (.error lastErr))
      else if isContextError lastErr && callOpts.perCallTimeout != 0 then
        ([.SignCertificate attempt req], .inr lastErr)
      else if !isRetriable lastErr callOpts then
        ([.SignCertificate attempt req], .inl (.error lastErr))
      else ([.SignCertificate attempt req], .inr lastErr)

/-- The retry loop from the attempt with the given index on, with `more` further
attempts allowed after it; when the attempts are used up the last error is returned. -/
def loop (w : World) (callOpts : options) (req : SignCertificateRequest) :
    Nat → Nat → List Event × Except GoError SignCertificateResponse
  | 0, attempt =>
    match iteration w callOpts req attempt with
    | (evs, .inl res) => (evs, res)
    | (evs, .inr lastErr) => (evs, .error lastErr)
  | more + 1, attempt =>
    match iteration w callOpts req attempt with
    | (evs, .inl res) => (evs, res)
    | (evs, .inr _) =>
      (evs ++ (loop w callOpts req more (attempt + 1)).1,
        (loop w callOpts req more (attempt + 1)).2)

/-- The interceptor `grpcRetry.UnaryClientInterceptor(optFuncs...)` run on a call made
with the call options `opts`: with a maximum of 0 the call goes to the transport once,
otherwise through the retry loop. -/
def UnaryClientInterceptor (optFuncs : List CallOption) (w : World)
    (req : SignCertificateRequest) (opts : List CallOption) :
    List Event × Except GoError SignCertificateResponse :=
  let intOpts := reuseOrNewWithCallOptions defaultOptions optFuncs
  let callOpts := reuseOrNewWithCallOptions intOpts opts
  if callOpts.max = 0 then ([.SignCertificate 0 req], (w.invoke 0 req).result)
  else loop w callOpts req (callOpts.max - 1) 0

end retry

/-- The method `(*grpc.ClientConn).Invoke` for the RPC `SignCertificate`: the call is
handed to the unary interceptor of the connection when it has one, and otherwise goes
to the transport once: the call options of the retry middleware are read by its
interceptor only, gRPC itself ignores them. -/
def ClientConn.Invoke (cc : ClientConn) (w : World) (req : SignCertificateRequest)
    (opts : List CallOption) : List Event × Except GoError SignCertificateResponse :=
  match cc.unaryInt with
  | some optFuncs => retry.UnaryClientInterceptor optFuncs w req opts
  | none => ([.SignCertificate 0 req], (w.invoke 0 req).result)

/-- The call `sentryv1pb.NewCAClient(conn).SignCertificate(ctx, req, opts...)`; `none`
is the panic of a nil connection, which `Invoke` dereferences. -/
def SignCertificate (conn : Option ClientConn) (w : World) (req : SignCertificateRequest)
    (opts : List CallOption) :
    Option (List Event × Except GoError SignCertificateResponse) :=
  match conn with
  | none => none
  | some cc => some (cc.Invoke w req opts)

/-! ## `sentry.go` -/

/-- Modelled from the spec: the interface `security.Handler` (`pkg/security`, not under
`src/`), with the one method the source calls, `GRPCDialOptionMTLS`, which gives the
dial option for a peer identity; which option that is, is left to the handler. -/
structure Handler where
  GRPCDialOptionMTLS : String → DialOption

/-- The struct `Options` of `sentry.go`. -/
structure Options where
  SentryAddress : String
  SentryID : String
  Security : Handler

/-- The struct `Requester` of `sentry.go`; `sentryConn` is `none` for a nil pointer. -/
structure Requester where
  sentryAddress : String
  sentryID : String
  sec : Handler
  kubernetesMode : Bool
  sentryConn : Option ClientConn

/-- The method `dialSentryConnection`: dials sentry, blocking for up to one minute, and
stores the connection in the requester; the result is the requester after the call and
the error returned. -/
def Requester.dialSentryConnection (r : Requester) (w : World) :
    Requester × Option GoError :=
  match w.DialContext Minute r.sentryAddress
      [r.sec.GRPCDialOptionMTLS r.sentryID, .WithBlock] with
  | some err => (r, some (Errorf "error establishing connection to sentry" err))
  | none =>
    ({ r with
        sentryConn :=
          some ⟨r.sentryAddress, [r.sec.GRPCDialOptionMTLS r.sentryID, .WithBlock]⟩ },
      none)

/-- The function `New`: the two values it returns, the pointer to the requester (`none`
for a nil pointer) and the error (`none` for nil). -/
def New (w : World) (opts : Options) : Option Requester × Option GoError :=
  let kubeMode := (w.LookupEnv "KUBERNETES_SERVICE_HOST").isSome
  let r : Requester :=
    { sentryAddress := opts.SentryAddress
      sentryID := opts.SentryID
      sec := opts.Security
      kubernetesMode := kubeMode
      sentryConn := none }
  (some (r.dialSentryConnection w).1, (r.dialSentryConnection w).2)

/-- How a call of `RequestCertificateFromSentry` ends: it returns its three values (a
nil slice and a nil error are `none`), or it panics. -/
inductive Result
  | returned (chain : Option Bytes) (key : Option Bytes) (err : Option GoError)
  | panic
deriving DecidableEq, Repr

/-- The template of the certificate request the source builds. -/
def csrTemplate : CertificateRequest :=
  { Subject := { CommonName := "_unknown" }, DNSNames := ["_unknown"] }

/-- The request the source sends to sentry for a CSR, a token and a namespace. -/
def signRequest (w : World) (csrDER : Bytes) (token : String)
    (tokenValidator : TokenValidator) (ns : String) : SignCertificateRequest :=
  { CertificateSigningRequest :=
      w.EncodeToMemory { Type_ := "CERTIFICATE REQUEST", Headers := [], Bytes := csrDER }
    Id := "_unknown"
    Token := token
    Namespace := ns
    TokenValidator := tokenValidator }

/-- The method `RequestCertificateFromSentry`: what it does to the outside, in order,
and how it ends. -/
def Requester.RequestCertificateFromSentry (r : Requester) (w : World) (ns : String) :
    List Event × Result :=
  match w.GenerateKey with
  | .error err =>
    ([.GenerateKey], .returned none none (some (Errorf "failed to generate private key" err)))
  | .ok key =>
    match w.CreateCertificateRequest csrTemplate key with
    | .error err =>
      ([.GenerateKey, .CreateCertificateRequest csrTemplate key],
        .returned none none (some (Errorf "failed to create sidecar csr" err)))
    | .ok csrDER =>
      match w.GetSentryToken r.kubernetesMode with
      | .error err =>
        ([.GenerateKey, .CreateCertificateRequest csrTemplate key,
            .GetSentryToken r.kubernetesMode],
          .returned none none (some (Errorf "error obtaining token" err)))
      | .ok (token, tokenValidator) =>
        match SignCertificate r.sentryConn w (signRequest w csrDER token tokenValidator ns)
            [.WithMax 10, .WithPerRetryTimeout (Second * 3)] with
        | none =>
          ([.GenerateKey, .CreateCertificateRequest csrTemplate key,
              .GetSentryToken r.kubernetesMode],
            .panic)
        | some (rpc, .error err) =>
          ([.GenerateKey, .CreateCertificateRequest csrTemplate key,
              .GetSentryToken r.kubernetesMode] ++ rpc,
            .returned none none (some (Errorf "error from sentry SignCertificate" err)))
        | some (rpc, .ok resp) =>
          match w.MarshalPKCS8PrivateKey key with
          | .error err =>
            ([.GenerateKey, .CreateCertificateRequest csrTemplate key,
                .GetSentryToken r.kubernetesMode] ++ rpc ++ [.MarshalPKCS8PrivateKey key],
              .returned none none (some (Errorf "failed to marshal private key" err)))
          | .ok keyCS8 =>
            ([.GenerateKey, .CreateCertificateRequest csrTemplate key,
                .GetSentryToken r.kubernetesMode] ++ rpc ++ [.MarshalPKCS8PrivateKey key],
              .returned resp.GetWorkloadCertificate
                (some (w.EncodeToMemory
                  { Type_ := "PRIVATE KEY", Headers := [], Bytes := keyCS8 }))
                none)

/-! ## Notions the statements use -/

/-- What a run of the RPC layer for the request `req` guarantees: every event is an
attempt with that request; a response is the response of an attempt made; an error is
the error of an attempt made, or the end of the context of the caller during a
backoff wait. -/
def RpcSound (w : World) (req : SignCertificateRequest)
    (out : List Event × Except GoError SignCertificateResponse) : Prop :=
  (∀ ev ∈ out.1, ∃ n, ev = Event.SignCertificate n req) ∧
  (∀ resp, out.2 = .ok resp →
    ∃ n, Event.SignCertificate n req ∈ out.1 ∧ (w.invoke n req).result = .ok resp) ∧
  (∀ e, out.2 = .error e →
    (∃ n, Event.SignCertificate n req ∈ out.1 ∧ (w.invoke n req).result = .error e) ∨
    (∃ n, w.ctxErrInBackoff n = some e))

/-- Readers of the artefacts of a call, as a verifier of the pair would use them: the
public key of a PEM certificate request, the public key of the leaf of a PEM chain,
and the private key of a PEM block holding a PKCS#8 key. -/
structure Readers where
  csrPublicKey : Bytes → Option PublicKey
  leafPublicKey : Option Bytes → Option PublicKey
  privateKey : Bytes → Option PrivateKey

/-- The fallible steps of `RequestCertificateFromSentry`. -/
inductive Phase
  | keyGeneration | csrBuild | tokenFetch | caExchange | keyMarshal
deriving DecidableEq, Repr

/-- The message the source puts before the cause when the step fails. -/
def Phase.message : Phase → String
  | .keyGeneration => "failed to generate private key"
  | .csrBuild => "failed to create sidecar csr"
  | .tokenFetch => "error obtaining token"
  | .caExchange => "error from sentry SignCertificate"
  | .keyMarshal => "failed to marshal private key"

/-- The step failed in the run with the given cause: the cause is the error the call
of that step returned. For the exchange with the authority it is the error of an
attempt made, or the end of the context of the caller during a backoff wait. -/
def Phase.failedWith (p : Phase) (r : Requester) (w : World) (evs : List Event)
    (cause : GoError) : Prop :=
  match p with
  | .keyGeneration => w.GenerateKey = .error cause
  | .csrBuild =>
    ∃ k, w.GenerateKey = .ok k ∧ w.CreateCertificateRequest csrTemplate k = .error cause
  | .tokenFetch => w.GetSentryToken r.kubernetesMode = .error cause
  | .caExchange =>
    (∃ n req, Event.SignCertificate n req ∈ evs ∧ (w.invoke n req).result = .error cause) ∨
    (∃ n, w.ctxErrInBackoff n = some cause)
  | .keyMarshal =>
    ∃ k, w.GenerateKey = .ok k ∧ w.MarshalPKCS8PrivateKey k = .error cause

/-- The attempt is an event of the RPC `SignCertificate`. -/
def Event.isSignCertificate : Event → Bool
  | .SignCertificate _ _ => true
  | _ => false

/-- The outcome of an attempt is one the retry interceptor retries when it runs with
the options of the source, a timeout for each attempt and the default retriable codes,
and the context of the caller is alive: the error of a status with the code
`ResourceExhausted` or `Unavailable`, or of a deadline or cancellation of the attempt. -/
def Outcome.transient (o : Outcome) : Bool :=
  match o.result with
  | .ok _ => false
  | .error e =>
    retry.isContextError e || [Code.ResourceExhausted, Code.Unavailable].contains e.Code

/-! ## Example runs -/

namespace Example

/-- A private key. -/
def key : PrivateKey := { PublicKey := { X := 11, Y := 22 }, D := 33 }

/-- A security handler whose dial option is the mutual TLS transport credentials for
the peer identity. -/
def handler : Handler :=
  { GRPCDialOptionMTLS := fun id => .WithTransportCredentials (some id) }

/-- Options of a requester. -/
def options : Options :=
  { SentryAddress := "dapr-sentry.dapr-system.svc:443"
    SentryID := "spiffe://cluster.local/ns/dapr-system/dapr-sentry"
    Security := handler }

/-- A run in a cluster in which every call succeeds. The encodings are stand-ins: a
certificate request lists the public key after the tag 1, a PKCS#8 key the whole key
after the tag 2, a PEM block its bytes after the length of its type; the authority
answers with the certificate request it received after the tag 7. -/
def world : World :=
  { LookupEnv := fun k => if k = "KUBERNETES_SERVICE_HOST" then some "10.0.0.1" else none
    DialContext := fun _ _ _ => none
    GenerateKey := .ok key
    CreateCertificateRequest := fun _ k => .ok [1, k.PublicKey.X, k.PublicKey.Y]
    GetSentryToken := fun kube =>
      .ok (if kube then ("kube-token", .KUBERNETES) else ("file-token", .JWKS))
    MarshalPKCS8PrivateKey := fun k => .ok [2, k.PublicKey.X, k.PublicKey.Y, k.D]
    EncodeToMemory := fun b => b.Type_.length :: b.Bytes
    invoke := fun _ req => .signed ⟨some (7 :: req.CertificateSigningRequest)⟩
    ctxDoneAfter := fun _ => false
    ctxErrInBackoff := fun _ => none }

/-- The requester `New` builds in `world` from `options`. -/
def requester : Requester :=
  { sentryAddress := "dapr-sentry.dapr-system.svc:443"
    sentryID := "spiffe://cluster.local/ns/dapr-system/dapr-sentry"
    sec := handler
    kubernetesMode := true
    sentryConn :=
      some ⟨"dapr-sentry.dapr-system.svc:443",
        [.WithTransportCredentials (some "spiffe://cluster.local/ns/dapr-system/dapr-sentry"),
          .WithBlock]⟩ }

/-- The request sent in `world` for the namespace `default`. -/
def request : SignCertificateRequest :=
  { CertificateSigningRequest := [19, 1, 11, 22]
    Id := "_unknown"
    Token := "kube-token"
    Namespace := "default"
    TokenValidator := .KUBERNETES }

/-- A run in which the dial of sentry fails: the deadline of one minute ends. -/
def dialFails : World :=
  { world with
    DialContext := fun _ _ _ => some (.errorString "context deadline exceeded") }

/-- A run in which the first attempt of the RPC meets a transport failure and every
later attempt would be answered. -/
def firstAttemptUnavailable : World :=
  { world with
    invoke := fun n req =>
      if n = 0 then .unavailable "connection refused"
      else .signed ⟨some (7 :: req.CertificateSigningRequest)⟩ }

/-- A run in which the token source fails. -/
def tokenFails : World :=
  { world with
    GetSentryToken := fun _ => .error (.errorString "token file not found") }

/-- A run in which the authority answers the request with the status `Canceled`. -/
def authorityAnswersCanceled : World :=
  { world with invoke := fun _ _ => .rejected .Canceled "context canceled" }

/-- A run in which the caller cancels the context during the first attempt. -/
def callerCancels : World :=
  { world with
    invoke := fun _ _ => .canceled
    ctxDoneAfter := fun _ => true }

/-- The public key of a certificate request in the stand-in encoding of `world`. -/
def csrKey (b : Bytes) : Option PublicKey :=
  match b with
  | [_, 1, x, y] => some { X := x, Y := y }
  | _ => none

/-- Readers for the stand-in encodings of `world`. -/
def readers : Readers :=
  { csrPublicKey := csrKey
    leafPublicKey := fun c =>
      match c with
      | some (7 :: b) => csrKey b
      | _ => none
    privateKey := fun b =>
      match b with
      | [_, 2, x, y, d] => some { PublicKey := { X := x, Y := y }, D := d }
      | _ => none }

/-- The requester `New` returns next to the error when the dial fails. -/
def requesterWithoutConn : Requester :=
  { sentryAddress := "dapr-sentry.dapr-system.svc:443"
    sentryID := "spiffe://cluster.local/ns/dapr-system/dapr-sentry"
    sec := handler
    kubernetesMode := true
    sentryConn := none }

/-- The raw JSON value of four characters: quotation mark, reverse solidus, solidus,
quotation mark; a JSON serialization of the string of the one character solidus. -/
def quotedSolidus : Bytes := [0x22, 0x5C, 0x2F, 0x22]

/-- The raw JSON value that writes U+1F600 as the pair of surrogate escapes d83d and
de00, between quotation marks. -/
def quotedSurrogatePair : Bytes :=
  [0x22] ++ [0x5C] ++ ascii "ud83d" ++ [0x5C] ++ ascii "ude00" ++ [0x22]

/-- The raw JSON value `foobar` between quotation marks. -/
def quotedFoobar : Bytes := [0x22] ++ ascii "foobar" ++ [0x22]

end Example

/-! ## `DynamicValue.String` on quoted text without escapes -/

/-- In a text without quotation mark followed by one, the first quotation mark is the
last byte. -/
theorem indexOf_closing_quote (s : Bytes) (h : 0x22 ∉ s) :
    (s ++ [0x22]).indexOf 0x22 = s.length := by
  induction s with
  | nil => simp
  | cons a t ih =>
    have ha : a ≠ 0x22 := fun h1 => h (by simp [h1])
    have ht : 0x22 ∉ t := fun h1 => h (List.mem_cons_of_mem _ h1)
    simp [List.indexOf_cons, ha, ih ht]

/-- ASCII text is valid UTF-8. -/
theorem validLoop_ascii (s : Bytes) (h : ∀ b ∈ s, b < 0x80) :
    ∀ fuel, s.length ≤ fuel → utf8.validLoop fuel s = true := by
  induction s with
  | nil => intro fuel _; cases fuel <;> rfl
  | cons a t ih =>
    intro fuel hf
    cases fuel with
    | zero => simp at hf
    | succ f =>
      have ha : a < 0x80 := h a (by simp)
      have hstep : utf8.validStep (a :: t) = some 1 := by
        simp [utf8.validStep, utf8.RuneSelf, ha]
      unfold utf8.validLoop
      rw [hstep]
      exact ih (fun b hb => h b (List.mem_cons_of_mem _ hb)) f (by simpa using hf)

/-- A text without escapes and control characters, followed by a quotation mark, is
read by `json.chars` as itself. -/
theorem chars_plain (s : Bytes)
    (h : ∀ b ∈ s, 0x20 ≤ b ∧ b ≠ 0x22 ∧ b ≠ 0x5C) :
    ∀ fuel acc, s.length < fuel → json.chars fuel (s ++ [0x22]) acc = some (acc ++ s) := by
  induction s with
  | nil =>
    intro fuel acc hf
    cases fuel with
    | zero => simp at hf
    | succ f => simp [json.chars]
  | cons a t ih =>
    intro fuel acc hf
    cases fuel with
    | zero => simp at hf
    | succ f =>
      obtain ⟨h1, h2, h3⟩ := h a (by simp)
      have h4 : ¬ a < 0x20 := by omega
      have := ih (fun b hb => h b (List.mem_cons_of_mem _ hb)) f (acc ++ [a])
        (by simpa using hf)
      simp only [List.cons_append, json.chars, h2, h3, h4, if_false]
      refine this.trans ?_
      simp

/-- On the quoted form of a text without escapes, printable ASCII with no quotation
mark and no reverse solidus, which is a JSON serialization of the text,
`DynamicValue.String` returns the text. -/
theorem String_of_quoted_plain_text (s : Bytes)
    (h : ∀ b ∈ s, 0x20 ≤ b ∧ b < 0x7F ∧ b ≠ 0x22 ∧ b ≠ 0x5C) :
    json.stringValue ([0x22] ++ s ++ [0x22]) = some s ∧
    DynamicValue.String ⟨⟨[0x22] ++ s ++ [0x22]⟩⟩ = s := by
  have hq : 0x22 ∉ s := fun hm => (h _ hm).2.2.1 rfl
  have hb : 0x5C ∉ s := fun hm => (h _ hm).2.2.2 rfl
  have hn : 0x0A ∉ s := fun hm => by have := (h _ hm).1; omega
  refine ⟨?_, ?_⟩
  · have := chars_plain s (fun b hb => ⟨(h b hb).1, (h b hb).2.2.1, (h b hb).2.2.2⟩)
      ((s ++ [0x22]).length + 1) []
      (by simp only [List.length_append, List.length_singleton]; omega)
    simpa [json.stringValue] using this
  · have hvalid : utf8.ValidString s = true :=
      validLoop_ascii s (fun b hb => by have := (h b hb).2.1; omega) s.length (le_refl _)
    have hu : ∀ tl, tl = s ++ [0x22] → strconv.unquote (0x22 :: tl) true = some (s, []) := by
      intro tl htl
      have hidx : tl.indexOf 0x22 = s.length := by
        rw [htl]; exact indexOf_closing_quote s hq
      have hlen : tl.length = s.length + 1 := by rw [htl]; simp
      have htake : (0x22 :: tl).take (s.length + 2) = 0x22 :: tl := by
        apply List.take_of_length_le
        simp [hlen]
      have hdrop : (0x22 :: tl).drop (s.length + 2) = [] := by
        apply List.drop_of_length_le
        simp [hlen]
      have hbody : ((0x22 :: tl).take (s.length + 2 - 1)).drop 1 = s := by
        rw [htl]; simp
      have hc1 : (0x22 :: tl).contains 0x5C = false := by
        rw [htl]; simp [hb]
      have hc2 : (0x22 :: tl).contains 0x0A = false := by
        rw [htl]; simp [hn]
      cases tl with
      | nil => simp at hlen
      | cons a t =>
        unfold strconv.unquote
        simp only [hidx, hlen, htake, hdrop, hbody, hc1, hc2, hvalid]
        simp
    have hu1 := hu (s ++ [0x22]) rfl
    simp [DynamicValue.String, strconv.Unquote, hu1]

/-! ## The RPC layer: what every run of it guarantees -/

/-- One call of the transport is a sound run of the RPC layer. -/
theorem rpcSound_once (w : World) (req : SignCertificateRequest) (n : Nat) :
    RpcSound w req ([Event.SignCertificate n req], (w.invoke n req).result) := by
  refine ⟨?_, ?_, ?_⟩
  · intro ev hev
    exact ⟨n, by simpa using hev⟩
  · intro resp h
    exact ⟨n, by simp, h⟩
  · intro e h
    exact Or.inl ⟨n, by simp, h⟩

/-- The three ways an iteration of the retry loop can go: the context of the caller
ends in the backoff wait; the attempt is made and its result is final; the attempt is
made, fails, and the loop goes on. -/
theorem iteration_cases (w : World) (callOpts : retry.options)
    (req : SignCertificateRequest) (attempt : Nat) :
    (∃ e, w.ctxErrInBackoff attempt = some e ∧
      retry.iteration w callOpts req attempt = ([], .inl (.error e))) ∨
    (retry.iteration w callOpts req attempt =
      ([Event.SignCertificate attempt req], .inl (w.invoke attempt req).result)) ∨
    (∃ e, (w.invoke attempt req).result = .error e ∧
      retry.iteration w callOpts req attempt =
        ([Event.SignCertificate attempt req], .inr e)) := by
  unfold retry.iteration
  by_cases h0 : attempt = 0
  · simp only [h0, if_true]
    cases hr : (w.invoke 0 req).result with
    | ok resp => right; left; rfl
    | error e =>
      simp only []
      split_ifs
      · right; left; rfl
      · right; right; exact ⟨e, rfl, rfl⟩
      · right; left; rfl
      · right; right; exact ⟨e, rfl, rfl⟩
  · simp only [h0, if_false]
    cases hb : w.ctxErrInBackoff attempt with
    | some e => left; exact ⟨e, rfl, rfl⟩
    | none =>
      simp only []
      cases hr : (w.invoke attempt req).result with
      | ok resp => right; left; rfl
      | error e =>
        simp only []
        split_ifs
        · right; left; rfl
        · right; right; exact ⟨e, rfl, rfl⟩
        · right; left; rfl
        · right; right; exact ⟨e, rfl, rfl⟩

/-- A sound run stays sound with one more attempt before it. -/
theorem rpcSound_cons (w : World) (req : SignCertificateRequest) (n : Nat)
    (out : List Event × Except GoError SignCertificateResponse)
    (h : RpcSound w req out) :
    RpcSound w req (Event.SignCertificate n req :: out.1, out.2) := by
  obtain ⟨h1, h2, h3⟩ := h
  refine ⟨?_, ?_, ?_⟩
  · intro ev hev
    rcases List.mem_cons.mp hev with rfl | hev
    · exact ⟨n, rfl⟩
    · exact h1 ev hev
  · intro resp hr
    obtain ⟨m, hm, hi⟩ := h2 resp hr
    exact ⟨m, List.mem_cons_of_mem _ hm, hi⟩
  · intro e he
    rcases h3 e he with ⟨m, hm, hi⟩ | hb
    · exact Or.inl ⟨m, List.mem_cons_of_mem _ hm, hi⟩
    · exact Or.inr hb

/-- Every run of the retry loop is sound. -/
theorem rpcSound_loop (w : World) (callOpts : retry.options)
    (req : SignCertificateRequest) (more : Nat) :
    ∀ attempt, RpcSound w req (retry.loop w callOpts req more attempt) := by
  induction more with
  | zero =>
    intro attempt
    unfold retry.loop
    rcases iteration_cases w callOpts req attempt with ⟨e, hb, h⟩ | h | ⟨e, hr, h⟩
    · rw [h]
      exact ⟨by simp, by simp, fun e1 he => Or.inr ⟨attempt, by simp_all⟩⟩
    · rw [h]
      exact rpcSound_once w req attempt
    · rw [h]
      simp only []
      rw [← hr]
      exact rpcSound_once w req attempt
  | succ more ih =>
    intro attempt
    unfold retry.loop
    rcases iteration_cases w callOpts req attempt with ⟨e, hb, h⟩ | h | ⟨e, hr, h⟩
    · rw [h]
      exact ⟨by simp, by simp, fun e1 he => Or.inr ⟨attempt, by simp_all⟩⟩
    · rw [h]
      exact rpcSound_once w req attempt
    · rw [h]
      exact rpcSound_cons w req attempt _ (ih (attempt + 1))

/-- Every run of `ClientConn.Invoke` is sound, with or without the interceptor. -/
theorem rpcSound_invoke (cc : ClientConn) (w : World) (req : SignCertificateRequest)
    (opts : List CallOption) : RpcSound w req (cc.Invoke w req opts) := by
  unfold ClientConn.Invoke
  cases cc.unaryInt with
  | none => exact rpcSound_once w req 0
  | some optFuncs =>
    simp only [retry.UnaryClientInterceptor]
    split_ifs
    · exact rpcSound_once w req 0
    · exact rpcSound_loop w _ req _ 0

/-! ## The runs of `RequestCertificateFromSentry` -/

/-- The seven ways a call of `RequestCertificateFromSentry` can go: the failure of one
of the five fallible steps, the panic on a nil connection, and success. -/
theorem request_cases (r : Requester) (w : World) (ns : String) :
    (∃ e, w.GenerateKey = .error e ∧
      r.RequestCertificateFromSentry w ns =
        ([.GenerateKey],
          .returned none none (some (Errorf "failed to generate private key" e)))) ∨
    (∃ k e, w.GenerateKey = .ok k ∧ w.CreateCertificateRequest csrTemplate k = .error e ∧
      r.RequestCertificateFromSentry w ns =
        ([.GenerateKey, .CreateCertificateRequest csrTemplate k],
          .returned none none (some (Errorf "failed to create sidecar csr" e)))) ∨
    (∃ k der e, w.GenerateKey = .ok k ∧ w.CreateCertificateRequest csrTemplate k = .ok der ∧
      w.GetSentryToken r.kubernetesMode = .error e ∧
      r.RequestCertificateFromSentry w ns =
        ([.GenerateKey, .CreateCertificateRequest csrTemplate k,
            .GetSentryToken r.kubernetesMode],
          .returned none none (some (Errorf "error obtaining token" e)))) ∨
    (∃ k der tok tv, w.GenerateKey = .ok k ∧
      w.CreateCertificateRequest csrTemplate k = .ok der ∧
      w.GetSentryToken r.kubernetesMode = .ok (tok, tv) ∧ r.sentryConn = none ∧
      r.RequestCertificateFromSentry w ns =
        ([.GenerateKey, .CreateCertificateRequest csrTemplate k,
            .GetSentryToken r.kubernetesMode],
          .panic)) ∨
    (∃ k der tok tv cc rpc e, w.GenerateKey = .ok k ∧
      w.CreateCertificateRequest csrTemplate k = .ok der ∧
      w.GetSentryToken r.kubernetesMode = .ok (tok, tv) ∧ r.sentryConn = some cc ∧
      cc.Invoke w (signRequest w der tok tv ns)
        [.WithMax 10, .WithPerRetryTimeout (Second * 3)] = (rpc, .error e) ∧
      r.RequestCertificateFromSentry w ns =
        ([.GenerateKey, .CreateCertificateRequest csrTemplate k,
            .GetSentryToken r.kubernetesMode] ++ rpc,
          .returned none none (some (Errorf "error from sentry SignCertificate" e)))) ∨
    (∃ k der tok tv cc rpc resp e, w.GenerateKey = .ok k ∧
      w.CreateCertificateRequest csrTemplate k = .ok der ∧
      w.GetSentryToken r.kubernetesMode = .ok (tok, tv) ∧ r.sentryConn = some cc ∧
      cc.Invoke w (signRequest w der tok tv ns)
        [.WithMax 10, .WithPerRetryTimeout (Second * 3)] = (rpc, .ok resp) ∧
      w.MarshalPKCS8PrivateKey k = .error e ∧
      r.RequestCertificateFromSentry w ns =
        ([.GenerateKey, .CreateCertificateRequest csrTemplate k,
            .GetSentryToken r.kubernetesMode] ++ rpc ++ [.MarshalPKCS8PrivateKey k],
          .returned none none (some (Errorf "failed to marshal private key" e)))) ∨
    (∃ k der tok tv cc rpc resp keyCS8, w.GenerateKey = .ok k ∧
      w.CreateCertificateRequest csrTemplate k = .ok der ∧
      w.GetSentryToken r.kubernetesMode = .ok (tok, tv) ∧ r.sentryConn = some cc ∧
      cc.Invoke w (signRequest w der tok tv ns)
        [.WithMax 10, .WithPerRetryTimeout (Second * 3)] = (rpc, .ok resp) ∧
      w.MarshalPKCS8PrivateKey k = .ok keyCS8 ∧
      r.RequestCertificateFromSentry w ns =
        ([.GenerateKey, .CreateCertificateRequest csrTemplate k,
            .GetSentryToken r.kubernetesMode] ++ rpc ++ [.MarshalPKCS8PrivateKey k],
          .returned resp.WorkloadCertificate
            (some (w.EncodeToMemory
              { Type_ := "PRIVATE KEY", Headers := [], Bytes := keyCS8 }))
            none)) := by
  unfold Requester.RequestCertificateFromSentry
  cases hk : w.GenerateKey with
  | error e => exact Or.inl ⟨e, rfl, rfl⟩
  | ok k =>
    cases hc : w.CreateCertificateRequest csrTemplate k with
    | error e => exact Or.inr (Or.inl ⟨k, e, rfl, hc, by simp only [hc]⟩)
    | ok der =>
      cases ht : w.GetSentryToken r.kubernetesMode with
      | error e => exact Or.inr (Or.inr (Or.inl ⟨k, der, e, rfl, hc, rfl, by simp only [hc]⟩))
      | ok tt =>
        obtain ⟨tok, tv⟩ := tt
        cases hconn : r.sentryConn with
        | none =>
          exact Or.inr (Or.inr (Or.inr (Or.inl
            ⟨k, der, tok, tv, rfl, hc, rfl, rfl,
              by simp only [hc, ht, hconn, SignCertificate]⟩)))
        | some cc =>
          cases hi : cc.Invoke w (signRequest w der tok tv ns)
              [.WithMax 10, .WithPerRetryTimeout (Second * 3)] with
          | mk rpc res =>
            cases res with
            | error e =>
              exact Or.inr (Or.inr (Or.inr (Or.inr (Or.inl
                ⟨k, der, tok, tv, cc, rpc, e, rfl, hc, rfl, rfl, hi,
                  by simp only [hc, ht, hconn, SignCertificate, hi]⟩))))
            | ok resp =>
              cases hm : w.MarshalPKCS8PrivateKey k with
              | error e =>
                exact Or.inr (Or.inr (Or.inr (Or.inr (Or.inr (Or.inl
                  ⟨k, der, tok, tv, cc, rpc, resp, e, rfl, hc, rfl, rfl, hi, hm,
                    by simp only [hc, ht, hconn, SignCertificate, hi, hm]⟩)))))
              | ok keyCS8 =>
                exact Or.inr (Or.inr (Or.inr (Or.inr (Or.inr (Or.inr
                  ⟨k, der, tok, tv, cc, rpc, resp, keyCS8, rfl, hc, rfl, rfl, hi, hm,
                    by simp only [hc, ht, hconn, SignCertificate, hi, hm,
                      SignCertificateResponse.GetWorkloadCertificate]⟩)))))

/-- The client gets a response exactly when the authority signed. -/
theorem result_ok_iff (o : Outcome) (resp : SignCertificateResponse) :
    o.result = .ok resp ↔ o = .signed resp := by
  cases o <;> simp [Outcome.result]

/-- The deployment mode of a requester `New` returns is the probe of the environment
made at construction. -/
theorem new_kubernetesMode (w0 : World) (opts : Options) (r : Requester)
    (h : (New w0 opts).1 = some r) :
    r.kubernetesMode = (w0.LookupEnv "KUBERNETES_SERVICE_HOST").isSome := by
  simp only [New, Requester.dialSentryConnection, Option.some.injEq] at h
  cases hd : w0.DialContext Minute opts.SentryAddress
      [opts.Security.GRPCDialOptionMTLS opts.SentryID, .WithBlock] with
  | none => rw [hd] at h; rw [← h]
  | some e => rw [hd] at h; rw [← h]

/-! ## The two paths of the RPC: with and without the retry interceptor -/

/-- A connection dialled without a unary interceptor hands the call to the transport
once, whatever the call options. -/
theorem invoke_without_interceptor (cc : ClientConn) (w : World)
    (req : SignCertificateRequest) (opts : List CallOption) (h : cc.unaryInt = none) :
    cc.Invoke w req opts = ([Event.SignCertificate 0 req], (w.invoke 0 req).result) := by
  simp only [ClientConn.Invoke, h]

/-- The connection `New` stores was dialled with the option of the security handler and
`WithBlock`: when the option of the handler is no interceptor, every call of
`RequestCertificateFromSentry` on the requester makes at most one attempt of the RPC,
the one of index 0. -/
theorem new_requester_makes_one_attempt (w0 : World) (opts : Options) (r : Requester)
    (hnew : (New w0 opts).1 = some r)
    (hsec : ∀ optFuncs,
      opts.Security.GRPCDialOptionMTLS opts.SentryID ≠ .WithUnaryInterceptor optFuncs)
    (w : World) (ns : String) :
    ((r.RequestCertificateFromSentry w ns).1.filter Event.isSignCertificate).length ≤ 1 ∧
    ∀ n req, Event.SignCertificate n req ∈ (r.RequestCertificateFromSentry w ns).1 →
      n = 0 := by
  have hconn : ∀ cc, r.sentryConn = some cc → cc.unaryInt = none := by
    intro cc hcc
    simp only [New, Requester.dialSentryConnection, Option.some.injEq] at hnew
    cases hd : w0.DialContext Minute opts.SentryAddress
        [opts.Security.GRPCDialOptionMTLS opts.SentryID, .WithBlock] with
    | some e =>
      rw [hd] at hnew
      rw [← hnew] at hcc
      simp at hcc
    | none =>
      rw [hd] at hnew
      rw [← hnew] at hcc
      simp only [Option.some.injEq] at hcc
      rw [← hcc]
      cases ho : opts.Security.GRPCDialOptionMTLS opts.SentryID with
      | WithTransportCredentials p => simp [ClientConn.unaryInt]
      | WithBlock => simp [ClientConn.unaryInt]
      | WithUnaryInterceptor optFuncs => exact absurd ho (hsec optFuncs)
  rcases request_cases r w ns with
    ⟨e, _, hq⟩ | ⟨k, e, _, _, hq⟩ | ⟨k, der, e, _, _, _, hq⟩ |
    ⟨k, der, tok, tv, _, _, _, _, hq⟩ |
    ⟨k, der, tok, tv, cc, rpc, e, _, _, _, hcc, hi, hq⟩ |
    ⟨k, der, tok, tv, cc, rpc, resp, e, _, _, _, hcc, hi, _, hq⟩ |
    ⟨k, der, tok, tv, cc, rpc, resp, keyCS8, _, _, _, hcc, hi, _, hq⟩
  · rw [hq]; simp [Event.isSignCertificate]
  · rw [hq]; simp [Event.isSignCertificate]
  · rw [hq]; simp [Event.isSignCertificate]
  · rw [hq]; simp [Event.isSignCertificate]
  · rw [invoke_without_interceptor cc w _ _ (hconn cc hcc)] at hi
    simp only [Prod.mk.injEq] at hi
    rw [hq, ← hi.1]
    simp [Event.isSignCertificate]
  · rw [invoke_without_interceptor cc w _ _ (hconn cc hcc)] at hi
    simp only [Prod.mk.injEq] at hi
    rw [hq, ← hi.1]
    simp [Event.isSignCertificate]
  · rw [invoke_without_interceptor cc w _ _ (hconn cc hcc)] at hi
    simp only [Prod.mk.injEq] at hi
    rw [hq, ← hi.1]
    simp [Event.isSignCertificate]

/-- An iteration whose attempt has a transient outcome goes on, when the context of the
caller is alive. -/
theorem iteration_of_transient (w : World) (callOpts : retry.options)
    (req : SignCertificateRequest) (attempt : Nat)
    (hpt : callOpts.perCallTimeout ≠ 0)
    (hcodes : callOpts.codes = [.ResourceExhausted, .Unavailable])
    (halive : w.ctxDoneAfter attempt = false) (hback : w.ctxErrInBackoff attempt = none)
    (ht : (w.invoke attempt req).transient = true) :
    ∃ e, (w.invoke attempt req).result = .error e ∧
      retry.iteration w callOpts req attempt =
        ([Event.SignCertificate attempt req], .inr e) := by
  have hb : (if attempt = 0 then none else w.ctxErrInBackoff attempt) = none := by
    split <;> simp [hback]
  unfold retry.iteration
  rw [hb]
  unfold Outcome.transient at ht
  cases hres : (w.invoke attempt req).result with
  | ok resp => rw [hres] at ht; simp at ht
  | error e =>
    rw [hres] at ht
    refine ⟨e, rfl, ?_⟩
    simp only [halive, Bool.and_false, Bool.false_eq_true, if_false]
    by_cases hc : retry.isContextError e = true
    · simp [hc, hpt]
    · simp only [Bool.not_eq_true] at hc
      simp only [hc, Bool.false_or] at ht
      simp only [hc, retry.isRetriable, hcodes, ht, Bool.false_and, Bool.false_eq_true,
        if_false, Bool.not_true]

/-- An iteration whose attempt has an outcome that is not transient is final. -/
theorem iteration_of_not_transient (w : World) (callOpts : retry.options)
    (req : SignCertificateRequest) (attempt : Nat)
    (hcodes : callOpts.codes = [.ResourceExhausted, .Unavailable])
    (hback : w.ctxErrInBackoff attempt = none)
    (ht : (w.invoke attempt req).transient = false) :
    retry.iteration w callOpts req attempt =
      ([Event.SignCertificate attempt req], .inl (w.invoke attempt req).result) := by
  have hb : (if attempt = 0 then none else w.ctxErrInBackoff attempt) = none := by
    split <;> simp [hback]
  unfold retry.iteration
  rw [hb]
  unfold Outcome.transient at ht
  cases hres : (w.invoke attempt req).result with
  | ok resp => rfl
  | error e =>
    rw [hres] at ht
    simp only [Bool.or_eq_false_iff] at ht
    simp only [ht.1, retry.isRetriable, hcodes, ht.2, Bool.false_and, Bool.false_eq_true,
      if_false, Bool.not_false, if_true]

/-- The retry loop, when the context of the caller stays alive: it makes one attempt
after the other while the outcomes are transient and attempts are left, and returns
the outcome of the last attempt made. -/
theorem loop_run (w : World) (callOpts : retry.options) (req : SignCertificateRequest)
    (hpt : callOpts.perCallTimeout ≠ 0)
    (hcodes : callOpts.codes = [.ResourceExhausted, .Unavailable])
    (halive : ∀ n, w.ctxDoneAfter n = false) (hback : ∀ n, w.ctxErrInBackoff n = none) :
    ∀ more attempt j, j ≤ more →
      (∀ i, i < j → (w.invoke (attempt + i) req).transient = true) →
      (j = more ∨ (w.invoke (attempt + j) req).transient = false) →
      retry.loop w callOpts req more attempt =
        ((List.range (j + 1)).map (fun i => Event.SignCertificate (attempt + i) req),
          (w.invoke (attempt + j) req).result) := by
  intro more
  induction more with
  | zero =>
    intro attempt j hj _ _
    have hj0 : j = 0 := by omega
    subst hj0
    unfold retry.loop
    cases ht : (w.invoke attempt req).transient with
    | true =>
      obtain ⟨e, hres, hit⟩ := iteration_of_transient w callOpts req attempt hpt hcodes
        (halive attempt) (hback attempt) ht
      rw [hit]
      show ([Event.SignCertificate attempt req], Except.error e) = _
      rw [← hres]
      rfl
    | false =>
      rw [iteration_of_not_transient w callOpts req attempt hcodes (hback attempt) ht]
      rfl
  | succ more ih =>
    intro attempt j hj htrans hlast
    unfold retry.loop
    cases j with
    | zero =>
      have ht : (w.invoke attempt req).transient = false := by
        rcases hlast with h | h
        · omega
        · simpa using h
      rw [iteration_of_not_transient w callOpts req attempt hcodes (hback attempt) ht]
      rfl
    | succ j =>
      have ht : (w.invoke attempt req).transient = true := by
        simpa using htrans 0 (by omega)
      obtain ⟨e, _, hit⟩ := iteration_of_transient w callOpts req attempt hpt hcodes
        (halive attempt) (hback attempt) ht
      rw [hit]
      have hrec := ih (attempt + 1) j (by omega)
        (fun i hi => by
          have := htrans (i + 1) (by omega)
          rwa [show attempt + (i + 1) = attempt + 1 + i by omega] at this)
        (by
          rcases hlast with h | h
          · left; omega
          · right
            rwa [show attempt + (j + 1) = attempt + 1 + j by omega] at h)
      simp only [hrec]
      refine Prod.ext ?_ ?_
      · simp only [List.singleton_append]
        rw [List.range_succ_eq_map (j + 1)]
        simp only [List.map_cons, List.map_map, Nat.add_zero, List.cons.injEq, true_and]
        apply List.map_congr_left
        intro i _
        simp only [Function.comp, Event.SignCertificate.injEq, and_true]
        omega
      · simp only
        rw [show attempt + (j + 1) = attempt + 1 + j by omega]

/-- The call options of the source leave the retriable codes as they are. -/
theorem foldl_applyOption_codes (opts : List CallOption) (o : retry.options) :
    (opts.foldl retry.applyOption o).codes = o.codes := by
  induction opts generalizing o with
  | nil => rfl
  | cons c cs ih =>
    simp only [List.foldl_cons]
    rw [ih]
    cases c <;> rfl

/-- The retry policy on a connection that carries the retry interceptor, absent
cancellation: with the call options of the source, the RPC makes the attempts 0 to
`j`, where `j` is the first attempt whose outcome is not transient, or 9 when the
first ten outcomes are all transient, and returns the outcome of attempt `j`. -/
theorem retry_policy_with_interceptor (cc : ClientConn) (optFuncs : List CallOption)
    (hcc : cc.unaryInt = some optFuncs) (w : World) (req : SignCertificateRequest)
    (halive : ∀ n, w.ctxDoneAfter n = false) (hback : ∀ n, w.ctxErrInBackoff n = none)
    (j : Nat) (hj : j < 10)
    (htrans : ∀ i, i < j → (w.invoke i req).transient = true)
    (hlast : j = 9 ∨ (w.invoke j req).transient = false) :
    cc.Invoke w req [.WithMax 10, .WithPerRetryTimeout (Second * 3)] =
      ((List.range (j + 1)).map (fun i => Event.SignCertificate i req),
        (w.invoke j req).result) := by
  simp only [ClientConn.Invoke, hcc, retry.UnaryClientInterceptor,
    retry.reuseOrNewWithCallOptions, List.foldl_cons, List.foldl_nil, retry.applyOption]
  have h := loop_run w
    { max := 10, perCallTimeout := Second * 3,
      codes := (optFuncs.foldl retry.applyOption retry.defaultOptions).codes } req
    (by show Second * 3 ≠ 0; decide) (by rw [foldl_applyOption_codes]; rfl) halive hback
    9 0 j (by omega)
    (fun i hi => by simpa using htrans i hi)
    (by simpa using hlast)
  simpa using h

/-! ## The claims -/

/-- C3: every call of `RequestCertificateFromSentry` that returns a non-nil error,
whatever the step that failed (key generation, CSR build, token fetch, the exchange with
the authority including a cancellation by the caller, key marshalling), returns two nil
byte slices: no chain and no key. -/
theorem C3_error_returns_no_chain_no_key (r : Requester) (w : World) (ns : String)
    (evs : List Event) (chain key : Option Bytes) (err : GoError)
    (h : r.RequestCertificateFromSentry w ns = (evs, .returned chain key (some err))) :
    chain = none ∧ key = none := by
  rcases request_cases r w ns with
    ⟨e, _, hq⟩ | ⟨k, e, _, _, hq⟩ | ⟨k, der, e, _, _, _, hq⟩ |
    ⟨k, der, tok, tv, _, _, _, _, hq⟩ | ⟨k, der, tok, tv, cc, rpc, e, _, _, _, _, _, hq⟩ |
    ⟨k, der, tok, tv, cc, rpc, resp, e, _, _, _, _, _, _, hq⟩ |
    ⟨k, der, tok, tv, cc, rpc, resp, keyCS8, _, _, _, _, _, _, hq⟩ <;>
  · rw [hq] at h
    simp only [Prod.mk.injEq, Result.returned.injEq, reduceCtorEq, and_false] at h
    try exact ⟨h.2.1.symm, h.2.2.1.symm⟩

/-- Witness of C3: the caller cancels during the exchange with the authority; the call
returns the wrapped cancellation and two nil slices. -/
theorem C3_error_returns_no_chain_no_key_witness :
    Example.requester.RequestCertificateFromSentry Example.callerCancels "default" =
      ([.GenerateKey, .CreateCertificateRequest csrTemplate Example.key,
          .GetSentryToken true, .SignCertificate 0 Example.request],
        .returned none none
          (some (Errorf "error from sentry SignCertificate"
            (.status .Canceled "context canceled")))) ∧
    ((none : Option Bytes) = none ∧ (none : Option Bytes) = none) :=
  ⟨by decide,
    C3_error_returns_no_chain_no_key Example.requester Example.callerCancels "default"
      _ none none _ rfl⟩

/-- C6: on every successful call of `RequestCertificateFromSentry` the first value
returned, the certificate chain, is the field `WorkloadCertificate` of the response the
authority gave to an attempt of this call, unchanged. -/
theorem C6_chain_is_the_response_field (r : Requester) (w : World) (ns : String)
    (evs : List Event) (chain key : Option Bytes)
    (h : r.RequestCertificateFromSentry w ns = (evs, .returned chain key none)) :
    ∃ n req resp, Event.SignCertificate n req ∈ evs ∧ w.invoke n req = .signed resp ∧
      chain = resp.WorkloadCertificate := by
  rcases request_cases r w ns with
    ⟨e, _, hq⟩ | ⟨k, e, _, _, hq⟩ | ⟨k, der, e, _, _, _, hq⟩ |
    ⟨k, der, tok, tv, _, _, _, _, hq⟩ | ⟨k, der, tok, tv, cc, rpc, e, _, _, _, _, _, hq⟩ |
    ⟨k, der, tok, tv, cc, rpc, resp, e, _, _, _, _, _, _, hq⟩ |
    ⟨k, der, tok, tv, cc, rpc, resp, keyCS8, _, _, _, _, hi, _, hq⟩
  all_goals rw [hq] at h
  all_goals simp only [Prod.mk.injEq, Result.returned.injEq, reduceCtorEq, and_false] at h
  obtain ⟨hevs, hchain, _, _⟩ := h
  have hs := rpcSound_invoke cc w (signRequest w der tok tv ns)
    [.WithMax 10, .WithPerRetryTimeout (Second * 3)]
  rw [hi] at hs
  obtain ⟨n, hn, hres⟩ := hs.2.1 resp rfl
  refine ⟨n, _, resp, ?_, (result_ok_iff _ _).mp hres, hchain.symm⟩
  rw [← hevs]
  simp only [List.mem_append, List.mem_cons, List.mem_singleton]
  exact Or.inl (Or.inr hn)

/-- Witness of C6: in the run in which every call succeeds the chain returned is the
chain of the response. -/
theorem C6_chain_is_the_response_field_witness :
    Example.requester.RequestCertificateFromSentry Example.world "default" =
      ([.GenerateKey, .CreateCertificateRequest csrTemplate Example.key,
          .GetSentryToken true, .SignCertificate 0 Example.request,
          .MarshalPKCS8PrivateKey Example.key],
        .returned (some [7, 19, 1, 11, 22]) (some [11, 2, 11, 22, 33]) none) ∧
    ∃ n req resp,
      Event.SignCertificate n req ∈
        [Event.GenerateKey, .CreateCertificateRequest csrTemplate Example.key,
          .GetSentryToken true, .SignCertificate 0 Example.request,
          .MarshalPKCS8PrivateKey Example.key] ∧
      Example.world.invoke n req = .signed resp ∧
      some [7, 19, 1, 11, 22] = resp.WorkloadCertificate :=
  ⟨by decide,
    C6_chain_is_the_response_field Example.requester Example.world "default" _ _ _ rfl⟩

/-- C4: the steps of `RequestCertificateFromSentry` are terminal in order. When key
generation fails the call returns that failure and has done nothing else; when the CSR
cannot be built it returns that failure with the token source never consulted and no
RPC issued; when the token source fails it returns that failure with no RPC issued. In
every call, an attempt of the RPC `SignCertificate` is made only when the token source
has answered with a token, and after it was consulted. -/
theorem C4_phases_are_terminal_in_order (r : Requester) (w : World) (ns : String) :
    (∀ e, w.GenerateKey = .error e →
      r.RequestCertificateFromSentry w ns =
        ([.GenerateKey],
          .returned none none (some (Errorf "failed to generate private key" e)))) ∧
    (∀ k e, w.GenerateKey = .ok k → w.CreateCertificateRequest csrTemplate k = .error e →
      r.RequestCertificateFromSentry w ns =
        ([.GenerateKey, .CreateCertificateRequest csrTemplate k],
          .returned none none (some (Errorf "failed to create sidecar csr" e)))) ∧
    (∀ k der e, w.GenerateKey = .ok k →
      w.CreateCertificateRequest csrTemplate k = .ok der →
      w.GetSentryToken r.kubernetesMode = .error e →
      r.RequestCertificateFromSentry w ns =
        ([.GenerateKey, .CreateCertificateRequest csrTemplate k,
            .GetSentryToken r.kubernetesMode],
          .returned none none (some (Errorf "error obtaining token" e)))) ∧
    (∀ n req, Event.SignCertificate n req ∈ (r.RequestCertificateFromSentry w ns).1 →
      ∃ token tokenValidator before after,
        w.GetSentryToken r.kubernetesMode = .ok (token, tokenValidator) ∧
        (r.RequestCertificateFromSentry w ns).1 =
          before ++ Event.GetSentryToken r.kubernetesMode :: after ∧
        (∀ m q, Event.SignCertificate m q ∉ before) ∧
        Event.SignCertificate n req ∈ after) := by
  refine ⟨?_, ?_, ?_, ?_⟩
  · intro e he
    simp only [Requester.RequestCertificateFromSentry, he]
  · intro k e hk hc
    simp only [Requester.RequestCertificateFromSentry, hk, hc]
  · intro k der e hk hc ht
    simp only [Requester.RequestCertificateFromSentry, hk, hc, ht]
  · intro n req hmem
    rcases request_cases r w ns with
      ⟨e, _, hq⟩ | ⟨k, e, _, _, hq⟩ | ⟨k, der, e, _, _, _, hq⟩ |
      ⟨k, der, tok, tv, _, _, _, _, hq⟩ |
      ⟨k, der, tok, tv, cc, rpc, e, _, _, ht, _, _, hq⟩ |
      ⟨k, der, tok, tv, cc, rpc, resp, e, _, _, ht, _, _, _, hq⟩ |
      ⟨k, der, tok, tv, cc, rpc, resp, keyCS8, _, _, ht, _, _, _, hq⟩
    · rw [hq] at hmem; simp at hmem
    · rw [hq] at hmem; simp at hmem
    · rw [hq] at hmem; simp at hmem
    · rw [hq] at hmem; simp at hmem
    · rw [hq] at hmem ⊢
      refine ⟨tok, tv, [.GenerateKey, .CreateCertificateRequest csrTemplate k], rpc,
        ht, by simp, by simp, ?_⟩
      simpa using hmem
    · rw [hq] at hmem ⊢
      refine ⟨tok, tv, [.GenerateKey, .CreateCertificateRequest csrTemplate k],
        rpc ++ [.MarshalPKCS8PrivateKey k], ht, by simp, by simp, ?_⟩
      simpa using hmem
    · rw [hq] at hmem ⊢
      refine ⟨tok, tv, [.GenerateKey, .CreateCertificateRequest csrTemplate k],
        rpc ++ [.MarshalPKCS8PrivateKey k], ht, by simp, by simp, ?_⟩
      simpa using hmem

/-- Witness of C4: in the run in which the token source fails, the call ends with the
token failure after three events, none of them an attempt of the RPC. -/
theorem C4_phases_are_terminal_in_order_witness :
    Example.requester.RequestCertificateFromSentry Example.tokenFails "default" =
      ([.GenerateKey, .CreateCertificateRequest csrTemplate Example.key,
          .GetSentryToken true],
        .returned none none
          (some (Errorf "error obtaining token" (.errorString "token file not found")))) :=
  (C4_phases_are_terminal_in_order Example.requester Example.tokenFails "default").2.2.1
    Example.key [1, 11, 22] (.errorString "token file not found") rfl rfl rfl

/-- C7: every attempt of the RPC `SignCertificate` made by a call of
`RequestCertificateFromSentry` on a requester built by `New` carries the PEM block of
type `CERTIFICATE REQUEST` around the DER request built in this call from the key
generated in this call, with subject common name and DNS name `_unknown`; the id
`_unknown`; the namespace given by the caller; and the token and the token validator
as the token source returned them for the deployment mode found at construction. -/
theorem C7_request_fields (w0 : World) (opts : Options) (r : Requester) (w : World)
    (ns : String) (n : Nat) (req : SignCertificateRequest)
    (hnew : (New w0 opts).1 = some r)
    (hev : Event.SignCertificate n req ∈ (r.RequestCertificateFromSentry w ns).1) :
    ∃ k csrDER token tokenValidator,
      w.GenerateKey = .ok k ∧
      w.CreateCertificateRequest
        { Subject := { CommonName := "_unknown" }, DNSNames := ["_unknown"] } k
          = .ok csrDER ∧
      w.GetSentryToken (w0.LookupEnv "KUBERNETES_SERVICE_HOST").isSome
        = .ok (token, tokenValidator) ∧
      req =
        { CertificateSigningRequest :=
            w.EncodeToMemory
              { Type_ := "CERTIFICATE REQUEST", Headers := [], Bytes := csrDER }
          Id := "_unknown"
          Token := token
          Namespace := ns
          TokenValidator := tokenValidator } := by
  have hmode := new_kubernetesMode w0 opts r hnew
  have key : ∀ (k : PrivateKey) (der : Bytes) (tok : String) (tv : TokenValidator)
      (cc : ClientConn) (rpc : List Event) (res : Except GoError SignCertificateResponse),
      w.GenerateKey = .ok k → w.CreateCertificateRequest csrTemplate k = .ok der →
      w.GetSentryToken r.kubernetesMode = .ok (tok, tv) →
      cc.Invoke w (signRequest w der tok tv ns)
        [.WithMax 10, .WithPerRetryTimeout (Second * 3)] = (rpc, res) →
      Event.SignCertificate n req ∈ rpc →
      ∃ k csrDER token tokenValidator,
        w.GenerateKey = .ok k ∧
        w.CreateCertificateRequest
          { Subject := { CommonName := "_unknown" }, DNSNames := ["_unknown"] } k
            = .ok csrDER ∧
        w.GetSentryToken (w0.LookupEnv "KUBERNETES_SERVICE_HOST").isSome
          = .ok (token, tokenValidator) ∧
        req =
          { CertificateSigningRequest :=
              w.EncodeToMemory
                { Type_ := "CERTIFICATE REQUEST", Headers := [], Bytes := csrDER }
            Id := "_unknown"
            Token := token
            Namespace := ns
            TokenValidator := tokenValidator } := by
    intro k der tok tv cc rpc res hk hc ht hi hmem
    have hs := rpcSound_invoke cc w (signRequest w der tok tv ns)
      [.WithMax 10, .WithPerRetryTimeout (Second * 3)]
    rw [hi] at hs
    obtain ⟨m, hm⟩ := hs.1 _ hmem
    refine ⟨k, der, tok, tv, hk, hc, ?_, ?_⟩
    · rw [← hmode]; exact ht
    · simp only [Event.SignCertificate.injEq] at hm
      rw [hm.2]; rfl
  rcases request_cases r w ns with
    ⟨e, _, hq⟩ | ⟨k, e, _, _, hq⟩ | ⟨k, der, e, _, _, _, hq⟩ |
    ⟨k, der, tok, tv, _, _, _, _, hq⟩ |
    ⟨k, der, tok, tv, cc, rpc, e, hk, hc, ht, _, hi, hq⟩ |
    ⟨k, der, tok, tv, cc, rpc, resp, e, hk, hc, ht, _, hi, _, hq⟩ |
    ⟨k, der, tok, tv, cc, rpc, resp, keyCS8, hk, hc, ht, _, hi, _, hq⟩
  · rw [hq] at hev; simp at hev
  · rw [hq] at hev; simp at hev
  · rw [hq] at hev; simp at hev
  · rw [hq] at hev; simp at hev
  · rw [hq] at hev
    exact key k der tok tv cc rpc _ hk hc ht hi (by simpa using hev)
  · rw [hq] at hev
    exact key k der tok tv cc rpc _ hk hc ht hi (by simpa using hev)
  · rw [hq] at hev
    exact key k der tok tv cc rpc _ hk hc ht hi (by simpa using hev)

/-- Witness of C7: the requester built by `New` in a cluster sends, for the namespace
`default`, the request with the placeholder id, the token of the cluster mode and the
namespace of the caller. -/
theorem C7_request_fields_witness :
    (New Example.world Example.options).1 = some Example.requester ∧
    Event.SignCertificate 0 Example.request ∈
      (Example.requester.RequestCertificateFromSentry Example.world "default").1 ∧
    ∃ k csrDER token tokenValidator,
      Example.world.GenerateKey = .ok k ∧
      Example.world.CreateCertificateRequest
        { Subject := { CommonName := "_unknown" }, DNSNames := ["_unknown"] } k
          = .ok csrDER ∧
      Example.world.GetSentryToken
        (Example.world.LookupEnv "KUBERNETES_SERVICE_HOST").isSome
          = .ok (token, tokenValidator) ∧
      Example.request =
        { CertificateSigningRequest :=
            Example.world.EncodeToMemory
              { Type_ := "CERTIFICATE REQUEST", Headers := [], Bytes := csrDER }
          Id := "_unknown"
          Token := token
          Namespace := "default"
          TokenValidator := tokenValidator } :=
  ⟨rfl, by decide,
    C7_request_fields Example.world Example.options Example.requester Example.world
      "default" 0 Example.request rfl (by decide)⟩

/-- C2: on every successful call of `RequestCertificateFromSentry` the key returned
is the PEM block of type `PRIVATE KEY` around the PKCS#8 encoding of the key generated
in this call, and the certificate request every attempt of this call carries is the
PEM block around the DER request built from that same key. Hence, for readers of the
artefacts that recover the key from the block returned and the public key from the
request sent, whenever the authority issues the leaf for the public key of the
request it received, the public key of the leaf of the chain returned is the public
key of the key returned. -/
theorem C2_key_returned_is_the_key_of_the_csr (r : Requester) (w : World) (ns : String)
    (evs : List Event) (chain key : Option Bytes)
    (h : r.RequestCertificateFromSentry w ns = (evs, .returned chain key none)) :
    ∃ k csrDER keyCS8,
      w.GenerateKey = .ok k ∧
      w.CreateCertificateRequest csrTemplate k = .ok csrDER ∧
      w.MarshalPKCS8PrivateKey k = .ok keyCS8 ∧
      key = some (w.EncodeToMemory
        { Type_ := "PRIVATE KEY", Headers := [], Bytes := keyCS8 }) ∧
      (∀ n req, Event.SignCertificate n req ∈ evs →
        req.CertificateSigningRequest =
          w.EncodeToMemory
            { Type_ := "CERTIFICATE REQUEST", Headers := [], Bytes := csrDER }) ∧
      (∀ rd : Readers,
        rd.privateKey (w.EncodeToMemory
          { Type_ := "PRIVATE KEY", Headers := [], Bytes := keyCS8 }) = some k →
        rd.csrPublicKey (w.EncodeToMemory
          { Type_ := "CERTIFICATE REQUEST", Headers := [], Bytes := csrDER })
            = some k.PublicKey →
        (∀ n req resp, w.invoke n req = .signed resp →
          rd.leafPublicKey resp.WorkloadCertificate
            = rd.csrPublicKey req.CertificateSigningRequest) →
        ∃ keyPEM returnedKey, key = some keyPEM ∧
          rd.privateKey keyPEM = some returnedKey ∧
          rd.leafPublicKey chain = some returnedKey.PublicKey) := by
  rcases request_cases r w ns with
    ⟨e, _, hq⟩ | ⟨k, e, _, _, hq⟩ | ⟨k, der, e, _, _, _, hq⟩ |
    ⟨k, der, tok, tv, _, _, _, _, hq⟩ | ⟨k, der, tok, tv, cc, rpc, e, _, _, _, _, _, hq⟩ |
    ⟨k, der, tok, tv, cc, rpc, resp, e, _, _, _, _, _, _, hq⟩ |
    ⟨k, der, tok, tv, cc, rpc, resp, keyCS8, hk, hc, ht, _, hi, hm, hq⟩
  all_goals rw [hq] at h
  all_goals simp only [Prod.mk.injEq, Result.returned.injEq, reduceCtorEq, and_false] at h
  obtain ⟨hevs, hchain, hkey, _⟩ := h
  have hs := rpcSound_invoke cc w (signRequest w der tok tv ns)
    [.WithMax 10, .WithPerRetryTimeout (Second * 3)]
  rw [hi] at hs
  refine ⟨k, der, keyCS8, hk, hc, hm, hkey.symm, ?_, ?_⟩
  · intro n req hmem
    rw [← hevs] at hmem
    simp only [List.mem_append, List.mem_cons, List.mem_singleton, reduceCtorEq,
      List.not_mem_nil, or_false, false_or] at hmem
    obtain ⟨m, hm1⟩ := hs.1 _ hmem
    simp only [Event.SignCertificate.injEq] at hm1
    rw [hm1.2]; rfl
  · intro rd hpriv hcsr hca
    obtain ⟨n, _, hres⟩ := hs.2.1 resp rfl
    have hleaf := hca n _ resp ((result_ok_iff _ _).mp hres)
    refine ⟨_, k, hkey.symm, hpriv, ?_⟩
    rw [← hchain, hleaf]
    exact hcsr

/-- Witness of C2: in the run in which every call succeeds, the key read back from the
block returned and the leaf of the chain returned have the same public key. -/
theorem C2_key_returned_is_the_key_of_the_csr_witness :
    Example.requester.RequestCertificateFromSentry Example.world "default" =
      ([.GenerateKey, .CreateCertificateRequest csrTemplate Example.key,
          .GetSentryToken true, .SignCertificate 0 Example.request,
          .MarshalPKCS8PrivateKey Example.key],
        .returned (some [7, 19, 1, 11, 22]) (some [11, 2, 11, 22, 33]) none) ∧
    ∃ keyPEM returnedKey, some [11, 2, 11, 22, 33] = some keyPEM ∧
      Example.readers.privateKey keyPEM = some returnedKey ∧
      Example.readers.leafPublicKey (some [7, 19, 1, 11, 22])
        = some returnedKey.PublicKey := by
  refine ⟨by decide, ?_⟩
  obtain ⟨k, der, keyCS8, hk, hc, hm, _, _, hrd⟩ :=
    C2_key_returned_is_the_key_of_the_csr Example.requester Example.world "default"
      _ (some [7, 19, 1, 11, 22]) (some [11, 2, 11, 22, 33]) rfl
  have hk1 : Example.key = k := by
    simpa [Example.world] using hk
  subst hk1
  have hc1 : [1, 11, 22] = der := by
    simpa [Example.world, Example.key] using hc
  subst hc1
  have hm1 : [2, 11, 22, 33] = keyCS8 := by
    simpa [Example.world, Example.key] using hm
  subst hm1
  refine hrd Example.readers (by decide) (by decide) ?_
  intro n req resp hinv
  have hresp : resp = ⟨some (7 :: req.CertificateSigningRequest)⟩ := by
    simp only [Example.world, Outcome.signed.injEq] at hinv
    exact hinv.symm
  subst hresp
  rfl

/-- Every error `RequestCertificateFromSentry` returns is a wrapper that puts the
message of the step that failed before the cause, the cause being the error the call
of that step returned; the source has five such returns (key generation, CSR build,
token fetch, exchange with the authority, key marshalling), and their messages are
pairwise distinct. -/
theorem error_names_the_step (r : Requester) (w : World) (ns : String)
    (evs : List Event) (chain key : Option Bytes) (err : GoError)
    (h : r.RequestCertificateFromSentry w ns = (evs, .returned chain key (some err))) :
    (∃ (p : Phase) (cause : GoError), err = Errorf p.message cause ∧
      p.failedWith r w evs cause ∧
      err.Unwrap = some cause ∧ err ≠ cause ∧
      err.Error = p.message ++ ": " ++ cause.Error) ∧
    (∀ p q : Phase, p.message = q.message → p = q) := by
  have bare : ∀ (m : String) (c : GoError), GoError.wrapError m c ≠ c := by
    intro m c hc
    have := congrArg sizeOf hc
    simp only [GoError.wrapError.sizeOf_spec] at this
    omega
  refine ⟨?_, ?_⟩
  · rcases request_cases r w ns with
      ⟨e, hk, hq⟩ | ⟨k, e, hk, hc, hq⟩ | ⟨k, der, e, _, _, ht, hq⟩ |
      ⟨k, der, tok, tv, _, _, _, _, hq⟩ |
      ⟨k, der, tok, tv, cc, rpc, e, _, _, _, _, hi, hq⟩ |
      ⟨k, der, tok, tv, cc, rpc, resp, e, hk, _, _, _, _, hm, hq⟩ |
      ⟨k, der, tok, tv, cc, rpc, resp, keyCS8, _, _, _, _, _, _, hq⟩
    all_goals rw [hq] at h
    all_goals
      simp only [Prod.mk.injEq, Result.returned.injEq, reduceCtorEq, and_false,
        Option.some.injEq] at h
    · obtain ⟨_, _, _, herr⟩ := h
      subst herr
      exact ⟨.keyGeneration, e, rfl, hk, rfl, bare _ _, rfl⟩
    · obtain ⟨_, _, _, herr⟩ := h
      subst herr
      exact ⟨.csrBuild, e, rfl, ⟨k, hk, hc⟩, rfl, bare _ _, rfl⟩
    · obtain ⟨_, _, _, herr⟩ := h
      subst herr
      exact ⟨.tokenFetch, e, rfl, ht, rfl, bare _ _, rfl⟩
    · obtain ⟨hevs, _, _, herr⟩ := h
      subst herr
      have hs := rpcSound_invoke cc w (signRequest w der tok tv ns)
        [.WithMax 10, .WithPerRetryTimeout (Second * 3)]
      rw [hi] at hs
      refine ⟨.caExchange, e, rfl, ?_, rfl, bare _ _, rfl⟩
      rcases hs.2.2 e rfl with ⟨n, hn, hres⟩ | hb
      · refine Or.inl ⟨n, _, ?_, hres⟩
        rw [← hevs]
        exact List.mem_append_right _ hn
      · exact Or.inr hb
    · obtain ⟨_, _, _, herr⟩ := h
      subst herr
      exact ⟨.keyMarshal, e, rfl, ⟨k, hk, hm⟩, rfl, bare _ _, rfl⟩
  · intro p q
    cases p <;> cases q <;> decide

/-- C8: every error `RequestCertificateFromSentry` returns is a descriptive wrapper
around the underlying cause that names which one of the four phases failed (key
generation, CSR build, token fetch, exchange with the authority): the message of the
phase, then the message of the cause, the cause being the error the call of that phase
returned. The messages of the phases are pairwise distinct, and the cause is never
returned bare: it is what the error unwraps to. The key the generator returned is one
`x509.MarshalPKCS8PrivateKey` marshals, as it does every P-256 key. -/
theorem C8_error_names_one_of_the_four_phases (r : Requester) (w : World) (ns : String)
    (evs : List Event) (chain key : Option Bytes) (err : GoError)
    (hmarshal : ∀ k, w.GenerateKey = .ok k →
      ∃ keyCS8, w.MarshalPKCS8PrivateKey k = .ok keyCS8)
    (h : r.RequestCertificateFromSentry w ns = (evs, .returned chain key (some err))) :
    (∃ p ∈ [Phase.keyGeneration, Phase.csrBuild, Phase.tokenFetch, Phase.caExchange],
      ∃ cause : GoError, err = Errorf p.message cause ∧
        p.failedWith r w evs cause ∧
        err.Unwrap = some cause ∧ err ≠ cause ∧
        err.Error = p.message ++ ": " ++ cause.Error) ∧
    (∀ p q : Phase, p.message = q.message → p = q) := by
  obtain ⟨⟨p, cause, herr, hfail, hrest⟩, hdistinct⟩ :=
    error_names_the_step r w ns evs chain key err h
  refine ⟨⟨p, ?_, cause, herr, hfail, hrest⟩, hdistinct⟩
  cases p with
  | keyGeneration => simp
  | csrBuild => simp
  | tokenFetch => simp
  | caExchange => simp
  | keyMarshal =>
    obtain ⟨k, hk, hm⟩ := hfail
    obtain ⟨keyCS8, hok⟩ := hmarshal k hk
    rw [hok] at hm
    cases hm

/-- Witness of C8: in the run in which the token source fails the key can be
marshalled, and the error returned is the wrapper of the token phase. -/
theorem C8_error_names_one_of_the_four_phases_witness :
    (∀ k, Example.tokenFails.GenerateKey = .ok k →
      ∃ keyCS8, Example.tokenFails.MarshalPKCS8PrivateKey k = .ok keyCS8) ∧
    Example.requester.RequestCertificateFromSentry Example.tokenFails "default" =
      ([.GenerateKey, .CreateCertificateRequest csrTemplate Example.key,
          .GetSentryToken true],
        .returned none none
          (some (Errorf "error obtaining token" (.errorString "token file not found")))) ∧
    ∃ p ∈ [Phase.keyGeneration, Phase.csrBuild, Phase.tokenFetch, Phase.caExchange],
      ∃ cause : GoError,
        Errorf "error obtaining token" (.errorString "token file not found")
          = Errorf p.message cause ∧
        p.failedWith Example.requester Example.tokenFails
          [.GenerateKey, .CreateCertificateRequest csrTemplate Example.key,
            .GetSentryToken true] cause ∧
        (Errorf "error obtaining token" (.errorString "token file not found")).Unwrap
          = some cause ∧
        Errorf "error obtaining token" (.errorString "token file not found") ≠ cause ∧
        (Errorf "error obtaining token" (.errorString "token file not found")).Error
          = p.message ++ ": " ++ cause.Error :=
  ⟨fun _ _ => ⟨_, rfl⟩, by decide,
    (C8_error_names_one_of_the_four_phases Example.requester Example.tokenFails "default"
      _ none none _ (fun _ _ => ⟨_, rfl⟩) rfl).1⟩

/-- Counterexample to C9 as stated: a call the authority rejects with the status
`Canceled` and a call the caller cancels fail for different reasons and return the
same error, the same wrapper around the same status. -/
theorem C9_counterexample_same_error :
    Example.authorityAnswersCanceled.invoke 0 Example.request
      = .rejected .Canceled "context canceled" ∧
    Example.callerCancels.invoke 0 Example.request = .canceled ∧
    Example.requester.RequestCertificateFromSentry Example.authorityAnswersCanceled
        "default" =
      ([.GenerateKey, .CreateCertificateRequest csrTemplate Example.key,
          .GetSentryToken true, .SignCertificate 0 Example.request],
        .returned none none
          (some (Errorf "error from sentry SignCertificate"
            (.status .Canceled "context canceled")))) ∧
    Example.requester.RequestCertificateFromSentry Example.callerCancels "default" =
      Example.requester.RequestCertificateFromSentry Example.authorityAnswersCanceled
        "default" := by
  decide

/-- C9, amended: a call that fails in the exchange with the authority returns the one
wrapper `error from sentry SignCertificate` around the status error the RPC gave,
untouched: the error of an attempt made, or the end of the context of the caller
during a backoff wait. So two such calls return equal errors exactly when those status
errors are equal, and different errors whenever the status codes differ; the requester
adds nothing that tells a rejection, an unavailability and a cancellation apart. -/
theorem C9_exchange_failures_differ_by_status (r1 r2 : Requester) (w1 w2 : World)
    (ns1 ns2 : String) (evs1 evs2 : List Event) (chain1 key1 chain2 key2 : Option Bytes)
    (cause1 cause2 : GoError)
    (h1 : r1.RequestCertificateFromSentry w1 ns1 =
      (evs1, .returned chain1 key1
        (some (Errorf "error from sentry SignCertificate" cause1))))
    (h2 : r2.RequestCertificateFromSentry w2 ns2 =
      (evs2, .returned chain2 key2
        (some (Errorf "error from sentry SignCertificate" cause2)))) :
    ((∃ n req, Event.SignCertificate n req ∈ evs1 ∧
        (w1.invoke n req).result = .error cause1) ∨
      (∃ n, w1.ctxErrInBackoff n = some cause1)) ∧
    ((∃ n req, Event.SignCertificate n req ∈ evs2 ∧
        (w2.invoke n req).result = .error cause2) ∨
      (∃ n, w2.ctxErrInBackoff n = some cause2)) ∧
    (Errorf "error from sentry SignCertificate" cause1
        = Errorf "error from sentry SignCertificate" cause2 ↔ cause1 = cause2) ∧
    (cause1.Code ≠ cause2.Code →
      Errorf "error from sentry SignCertificate" cause1
        ≠ Errorf "error from sentry SignCertificate" cause2) := by
  have key : ∀ (r : Requester) (w : World) (ns : String) (evs : List Event)
      (chain key : Option Bytes) (cause : GoError),
      r.RequestCertificateFromSentry w ns =
        (evs, .returned chain key
          (some (Errorf "error from sentry SignCertificate" cause))) →
      ((∃ n req, Event.SignCertificate n req ∈ evs ∧
          (w.invoke n req).result = .error cause) ∨
        (∃ n, w.ctxErrInBackoff n = some cause)) := by
    intro r w ns evs chain key cause h
    rcases request_cases r w ns with
      ⟨e, _, hq⟩ | ⟨k, e, _, _, hq⟩ | ⟨k, der, e, _, _, _, hq⟩ |
      ⟨k, der, tok, tv, _, _, _, _, hq⟩ |
      ⟨k, der, tok, tv, cc, rpc, e, _, _, _, _, hi, hq⟩ |
      ⟨k, der, tok, tv, cc, rpc, resp, e, _, _, _, _, _, _, hq⟩ |
      ⟨k, der, tok, tv, cc, rpc, resp, keyCS8, _, _, _, _, _, _, hq⟩
    all_goals rw [hq] at h
    all_goals
      simp only [Prod.mk.injEq, Result.returned.injEq, reduceCtorEq, and_false,
        Option.some.injEq, Errorf, GoError.wrapError.injEq] at h
    · exact absurd h.2.2.2.1 (by decide)
    · exact absurd h.2.2.2.1 (by decide)
    · exact absurd h.2.2.2.1 (by decide)
    · obtain ⟨hevs, _, _, _, hcause⟩ := h
      subst hcause
      have hs := rpcSound_invoke cc w (signRequest w der tok tv ns)
        [.WithMax 10, .WithPerRetryTimeout (Second * 3)]
      rw [hi] at hs
      rcases hs.2.2 e rfl with ⟨n, hn, hres⟩ | hb
      · refine Or.inl ⟨n, _, ?_, hres⟩
        rw [← hevs]
        exact List.mem_append_right _ hn
      · exact Or.inr hb
    · exact absurd h.2.2.2.1 (by decide)
  refine ⟨key r1 w1 ns1 evs1 chain1 key1 cause1 h1,
    key r2 w2 ns2 evs2 chain2 key2 cause2 h2, ?_, ?_⟩
  · simp [Errorf]
  · intro hcode heq
    simp only [Errorf, GoError.wrapError.injEq, true_and] at heq
    exact hcode (by rw [heq])

/-- Witness of C9, amended: a transport failure and a cancellation by the caller give
errors that differ, as their status codes do. -/
theorem C9_exchange_failures_differ_by_status_witness :
    Example.requester.RequestCertificateFromSentry Example.firstAttemptUnavailable
        "default" =
      ([.GenerateKey, .CreateCertificateRequest csrTemplate Example.key,
          .GetSentryToken true, .SignCertificate 0 Example.request],
        .returned none none
          (some (Errorf "error from sentry SignCertificate"
            (.status .Unavailable "connection refused")))) ∧
    Example.requester.RequestCertificateFromSentry Example.callerCancels "default" =
      ([.GenerateKey, .CreateCertificateRequest csrTemplate Example.key,
          .GetSentryToken true, .SignCertificate 0 Example.request],
        .returned none none
          (some (Errorf "error from sentry SignCertificate"
            (.status .Canceled "context canceled")))) ∧
    Errorf "error from sentry SignCertificate" (.status .Unavailable "connection refused")
      ≠ Errorf "error from sentry SignCertificate" (.status .Canceled "context canceled") :=
  ⟨by decide, by decide,
    (C9_exchange_failures_differ_by_status Example.requester Example.requester
      Example.firstAttemptUnavailable Example.callerCancels "default" "default"
      _ _ none none none none _ _ rfl rfl).2.2.2 (by decide)⟩

/-- Counterexample to C1 as stated: when the dial fails `New` returns the error and,
next to it, a requester that is not nil; `RequestCertificateFromSentry` can be invoked
on it, and in a run in which every call succeeds it generates a key, builds the CSR,
fetches the token and then panics on the nil connection. -/
theorem C1_counterexample_requester_returned :
    Example.dialFails.DialContext Minute Example.options.SentryAddress
        [Example.options.Security.GRPCDialOptionMTLS Example.options.SentryID,
          .WithBlock]
      = some (.errorString "context deadline exceeded") ∧
    New Example.dialFails Example.options =
      (some Example.requesterWithoutConn,
        some (Errorf "error establishing connection to sentry"
          (.errorString "context deadline exceeded"))) ∧
    (New Example.dialFails Example.options).1 ≠ none ∧
    Example.requesterWithoutConn.RequestCertificateFromSentry Example.world "default" =
      ([.GenerateKey, .CreateCertificateRequest csrTemplate Example.key,
          .GetSentryToken true],
        .panic) := by
  refine ⟨by decide, rfl, ?_, by decide⟩
  simp [New]

/-- C1, amended: when the dial of the authority fails, `New` returns a non-nil error,
the dial error wrapped as `error establishing connection to sentry`, and next to it a
requester whose connection is nil; a call of `RequestCertificateFromSentry` on that
requester makes no attempt of the RPC and never returns a chain and key: it fails in
an earlier step, or panics. -/
theorem C1_failed_dial_returns_error_and_no_connection (w : World) (opts : Options)
    (err : GoError)
    (h : w.DialContext Minute opts.SentryAddress
      [opts.Security.GRPCDialOptionMTLS opts.SentryID, .WithBlock] = some err) :
    ∃ r, New w opts =
        (some r, some (Errorf "error establishing connection to sentry" err)) ∧
      r.sentryConn = none ∧
      ∀ (w1 : World) (ns : String),
        (∀ n req, Event.SignCertificate n req ∉ (r.RequestCertificateFromSentry w1 ns).1) ∧
        (∀ chain key, (r.RequestCertificateFromSentry w1 ns).2 ≠ .returned chain key none) := by
  refine ⟨{ sentryAddress := opts.SentryAddress, sentryID := opts.SentryID,
            sec := opts.Security,
            kubernetesMode := (w.LookupEnv "KUBERNETES_SERVICE_HOST").isSome,
            sentryConn := none }, ?_, ?_, ?_⟩
  · simp only [New, Requester.dialSentryConnection, h]
  · rfl
  · intro w1 ns
    rcases request_cases
        { sentryAddress := opts.SentryAddress, sentryID := opts.SentryID,
          sec := opts.Security,
          kubernetesMode := (w.LookupEnv "KUBERNETES_SERVICE_HOST").isSome,
          sentryConn := none } w1 ns with
      ⟨e, _, hq⟩ | ⟨k, e, _, _, hq⟩ | ⟨k, der, e, _, _, _, hq⟩ |
      ⟨k, der, tok, tv, _, _, _, _, hq⟩ |
      ⟨k, der, tok, tv, cc, rpc, e, _, _, _, hconn, _, _⟩ |
      ⟨k, der, tok, tv, cc, rpc, resp, e, _, _, _, hconn, _, _, _⟩ |
      ⟨k, der, tok, tv, cc, rpc, resp, keyCS8, _, _, _, hconn, _, _, _⟩
    · rw [hq]; simp
    · rw [hq]; simp
    · rw [hq]; simp
    · rw [hq]; simp
    · simp at hconn
    · simp at hconn
    · simp at hconn

/-- Witness of C1, amended: the run in which the dial ends at its deadline. -/
theorem C1_failed_dial_returns_error_and_no_connection_witness :
    Example.dialFails.DialContext Minute Example.options.SentryAddress
        [Example.options.Security.GRPCDialOptionMTLS Example.options.SentryID,
          .WithBlock]
      = some (.errorString "context deadline exceeded") ∧
    ∃ r, New Example.dialFails Example.options =
        (some r, some (Errorf "error establishing connection to sentry"
          (.errorString "context deadline exceeded"))) ∧
      r.sentryConn = none ∧
      ∀ (w1 : World) (ns : String),
        (∀ n req, Event.SignCertificate n req ∉ (r.RequestCertificateFromSentry w1 ns).1) ∧
        (∀ chain key, (r.RequestCertificateFromSentry w1 ns).2 ≠ .returned chain key none) :=
  ⟨by decide,
    C1_failed_dial_returns_error_and_no_connection Example.dialFails Example.options
      (.errorString "context deadline exceeded") (by decide)⟩

/-- C5, at the failing input: the requester `New` builds with a handler that supplies
the mutual TLS credentials has a connection without the retry interceptor, so the call
options `WithMax(10)` and `WithPerRetryTimeout(3s)` are read by nothing. When the first
attempt meets a transport failure and a second attempt would be answered, the call
makes one attempt and returns the error of the first. -/
theorem C5_one_attempt_on_transport_failure :
    New Example.firstAttemptUnavailable Example.options = (some Example.requester, none) ∧
    Example.firstAttemptUnavailable.invoke 0 Example.request
      = .unavailable "connection refused" ∧
    Example.firstAttemptUnavailable.invoke 1 Example.request
      = .signed ⟨some [7, 19, 1, 11, 22]⟩ ∧
    Example.requester.RequestCertificateFromSentry Example.firstAttemptUnavailable
        "default" =
      ([.GenerateKey, .CreateCertificateRequest csrTemplate Example.key,
          .GetSentryToken true, .SignCertificate 0 Example.request],
        .returned none none
          (some (Errorf "error from sentry SignCertificate"
            (.status .Unavailable "connection refused")))) :=
  ⟨rfl, by decide, by decide, by decide⟩

/-- C10, at the failing inputs: the JSON serialization of the string of the one
character solidus that escapes the solidus, and the JSON serialization of U+1F600 that
writes it as a pair of surrogate escapes, are not Go string literals; `Unquote` fails on
them and `DynamicValue.String` returns the raw bytes, quotation marks and escapes
included, and not the string. The example of the claim, `foobar` between quotation
marks, gives `foobar`. -/
theorem C10_json_escapes_are_not_unquoted :
    json.stringValue Example.quotedSolidus = some [0x2F] ∧
    DynamicValue.String ⟨⟨Example.quotedSolidus⟩⟩ = [0x22, 0x5C, 0x2F, 0x22] ∧
    json.stringValue Example.quotedSurrogatePair = some [0xF0, 0x9F, 0x98, 0x80] ∧
    DynamicValue.String ⟨⟨Example.quotedSurrogatePair⟩⟩ = Example.quotedSurrogatePair ∧
    json.stringValue Example.quotedFoobar = some (ascii "foobar") ∧
    DynamicValue.String ⟨⟨Example.quotedFoobar⟩⟩ = ascii "foobar" := by
  decide

end Dapr
